import Mathlib

/-!
# Verification of the ecosystem simulation core

Shallow embedding of `src/game_v3/src/model/model.ts`: a three-species
agent-based ecological simulator (trees / deer / wolves) with a spatial grid
index over the producers.

Modelling conventions:

* JS numbers are modelled by `ℚ` (exact arithmetic).  The JS `Math` library
  calls appearing in the source (`Math.sqrt`, `Math.cos`, `Math.sin`,
  `Math.PI`) are modelled by an explicit record `MathFns` of rational
  functions, threaded through every definition that uses them; theorems that
  need facts about `sqrt` assume `SqrtSpec`, a specification true of the real
  square root.
* The ambient unseeded `Math.random()` is modelled by a stream `r : ℕ → ℚ`
  together with an explicit cursor `k : ℕ`; every single `Math.random()`
  call in the source consumes exactly one draw, in source order (JS `&&`
  short-circuiting is respected, so a skipped call consumes no draw).
* The source's module-level id generators are modelled by explicit
  `nextTreeId` / `nextDeerId` / `nextWolfId` counters carried in `SimState`.
* In the source, grid buckets hold references to the same `Tree` objects as
  the `trees` array, so in-place field mutation is immediately visible
  through the grid.  The embedding makes this aliasing explicit with
  `replaceInGridById`, applied whenever a tree's mutable fields change.
* JS float division by zero (producing `NaN`/`Infinity`) cannot be expressed
  in `ℚ`; the movement snippets whose behaviour at a zero distance is at
  issue are additionally given a faithful float-aware model (`JsNum`) at the
  end of the definitions.
-/

namespace EcoSim

/-- One random draw per index: `Math.random()` at cursor `k` is `r k`, and the
cursor advances to `k + 1`. -/
abbrev Rng := ℕ → ℚ

/-- The JS `Math` library functions used by the source, as explicit model
parameters. -/
structure MathFns where
  sqrt : ℚ → ℚ
  cos : ℚ → ℚ
  sin : ℚ → ℚ
  pi : ℚ

/-- Specification of `Math.sqrt` needed by the crowdedness bounds: the result
is nonnegative, and strictly below any bound whose square exceeds the
argument.  Both facts hold for the real square root. -/
def SqrtSpec (M : MathFns) : Prop :=
  (∀ q : ℚ, 0 ≤ M.sqrt q) ∧
  (∀ q b : ℚ, 0 ≤ q → q < b * b → M.sqrt q < |b|)

-- Grid density - number of cells in each dimension (source line 2)
def GRID_SIZE : ℕ := 20

-- Ecosystem scale - multiplies all distances (source line 5)
def ECOSYSTEM_SCALE : ℚ := 1/2

-- Interaction radii base values (source lines 8-11)
def DEER_EATING_RADIUS_BASE : ℚ := 3/100
def DEER_CROWDING_RADIUS_BASE : ℚ := 15/100
def WOLF_KILL_RADIUS_BASE : ℚ := 35/1000
def WOLF_CROWDING_RADIUS_BASE : ℚ := 3/10

-- Crowding penalty constants (source lines 14-16)
def DEER_CROWDING_DEATH_PENALTY : ℚ := 2/1000
def WOLF_CROWDING_DEATH_PENALTY : ℚ := 6/1000
def TREE_CROWDED_DEATH_BASE : ℚ := 1/2

-- Minimum crowding effects (hard cap) (source lines 19-20)
def MIN_CROWDING_GROWTH_REDUCTION : ℚ := 1/4
def MIN_CROWDING_DEATH_MULTIPLIER : ℚ := 2/5

-- Energy constants (source lines 23-32)
def DEER_MAX_ENERGY : ℚ := 2
def DEER_REPRODUCE_THRESHOLD : ℚ := 1
def DEER_REPRODUCE_AGE : ℚ := 10
def DEER_REPRODUCTION_COST : ℚ := 1/2
def WOLF_MAX_ENERGY : ℚ := 5/2
def WOLF_REPRODUCE_THRESHOLD : ℚ := 1
def WOLF_REPRODUCE_AGE : ℚ := 5
def WOLF_REPRODUCTION_COST : ℚ := 3/5
def WOLF_HUNT_SUCCESS_BASE : ℚ := 7/10

/-- An inclusive characteristic bound. -/
structure Bound where
  min : ℚ
  max : ℚ
  deriving DecidableEq

/-- Characteristic bounds for Trees (source lines 35-43). -/
structure TreeBoundsT where
  MaxSize : Bound
  AgeToSpread : Bound
  SpreadDistance : Bound
  DeathChance : Bound
  SpreadChance : Bound
  OptimalMoisture : Bound
  CrowdingSusceptibility : Bound

def TREE_BOUNDS : TreeBoundsT where
  MaxSize := ⟨5, 25⟩
  AgeToSpread := ⟨3, 20⟩
  SpreadDistance := ⟨3/100, 15/100⟩
  DeathChance := ⟨2/1000, 25/1000⟩
  SpreadChance := ⟨8/100, 25/100⟩
  OptimalMoisture := ⟨0, 1⟩
  CrowdingSusceptibility := ⟨1/2, 2⟩

/-- Characteristic bounds for Deer (source lines 46-54). -/
structure DeerBoundsT where
  MaxSize : Bound
  Speed : Bound
  DeathChance : Bound
  ReproduceChance : Bound
  CrowdingSusceptibility : Bound
  MaxEatableSize : Bound
  EnergyNeeds : Bound

def DEER_BOUNDS : DeerBoundsT where
  MaxSize := ⟨2, 5⟩
  Speed := ⟨3/1000, 15/1000⟩
  DeathChance := ⟨1/100000, 1/10000⟩
  ReproduceChance := ⟨4/10, 98/100⟩
  CrowdingSusceptibility := ⟨1/2, 2⟩
  MaxEatableSize := ⟨3, 15⟩
  EnergyNeeds := ⟨1/100, 5/100⟩

/-- Characteristic bounds for Wolves (source lines 57-64). -/
structure WolfBoundsT where
  MaxSize : Bound
  Speed : Bound
  DeathChance : Bound
  ReproduceChance : Bound
  CrowdingSusceptibility : Bound
  EnergyNeeds : Bound

def WOLF_BOUNDS : WolfBoundsT where
  MaxSize := ⟨5/2, 6⟩
  Speed := ⟨8/1000, 25/1000⟩
  DeathChance := ⟨1/100000, 3/10000⟩
  ReproduceChance := ⟨5/100, 35/100⟩
  CrowdingSusceptibility := ⟨1/2, 2⟩
  EnergyNeeds := ⟨25/1000, 12/100⟩

/-- Source lines 80-88. -/
structure TreeCharacteristics where
  MaxSize : ℚ
  AgeToSpread : ℚ
  SpreadDistance : ℚ
  DeathChance : ℚ
  SpreadChance : ℚ
  OptimalMoisture : ℚ
  CrowdingSusceptibility : ℚ
  deriving DecidableEq

/-- Source lines 90-98. -/
structure DeerCharacteristics where
  MaxSize : ℚ
  Speed : ℚ
  DeathChance : ℚ
  ReproduceChance : ℚ
  CrowdingSusceptibility : ℚ
  MaxEatableSize : ℚ
  EnergyNeeds : ℚ
  deriving DecidableEq

/-- Source lines 100-107. -/
structure WolfCharacteristics where
  MaxSize : ℚ
  Speed : ℚ
  DeathChance : ℚ
  ReproduceChance : ℚ
  CrowdingSusceptibility : ℚ
  EnergyNeeds : ℚ
  deriving DecidableEq

/-- Source lines 109-116. -/
structure Tree where
  id : ℕ
  x : ℚ
  y : ℚ
  age : ℚ
  size : ℚ
  characteristics : TreeCharacteristics
  deriving DecidableEq

/-- Source lines 118-125. -/
structure Deer where
  id : ℕ
  x : ℚ
  y : ℚ
  age : ℚ
  energy : ℚ
  characteristics : DeerCharacteristics
  deriving DecidableEq

/-- Source lines 127-134. -/
structure Wolf where
  id : ℕ
  x : ℚ
  y : ℚ
  age : ℚ
  energy : ℚ
  characteristics : WolfCharacteristics
  deriving DecidableEq

def defaultTreeCharacteristics : TreeCharacteristics := ⟨0, 0, 0, 0, 0, 0, 0⟩
def defaultTree : Tree := ⟨0, 0, 0, 0, 0, defaultTreeCharacteristics⟩
def defaultDeerCharacteristics : DeerCharacteristics := ⟨0, 0, 0, 0, 0, 0, 0⟩
def defaultDeer : Deer := ⟨0, 0, 0, 0, 0, defaultDeerCharacteristics⟩
def defaultWolfCharacteristics : WolfCharacteristics := ⟨0, 0, 0, 0, 0, 0⟩
def defaultWolf : Wolf := ⟨0, 0, 0, 0, 0, defaultWolfCharacteristics⟩

instance : Inhabited Tree := ⟨defaultTree⟩
instance : Inhabited Deer := ⟨defaultDeer⟩
instance : Inhabited Wolf := ⟨defaultWolf⟩

/-- Source lines 136-142.  The `Map<string, Tree[]>` grid is modelled as a
total function from integer cell coordinates to buckets, with missing keys
denoted by the empty bucket (`grid.get(c) || []`). -/
structure Ecosystem where
  trees : List Tree
  grid : ℤ × ℤ → List Tree
  deer : List Deer
  wolves : List Wolf
  terrain : ℕ → ℕ → ℚ

/-- Ecosystem state together with the module-level id counters
(`treeIdGenerator` / `deerIdGenerator` / `wolfIdGenerator`, source lines
67-77). -/
structure SimState where
  eco : Ecosystem
  nextTreeId : ℕ
  nextDeerId : ℕ
  nextWolfId : ℕ

-- Utility functions

/-- Source lines 145-147; the `Math.random()` draw is taken at cursor `k`. -/
def randomInRange (r : Rng) (k : ℕ) (mn mx : ℚ) : ℚ × ℕ :=
  (mn + r k * (mx - mn), k + 1)

/-- Source lines 457-461: cell key of a position. -/
def getCell (x y : ℚ) : ℤ × ℤ :=
  (⌊x * (GRID_SIZE : ℚ)⌋, ⌊y * (GRID_SIZE : ℚ)⌋)

/-- The grid cell of a tree (its position never changes). -/
def cellKey (t : Tree) : ℤ × ℤ := getCell t.x t.y

/-- Source lines 186-192. -/
def getMoisture (x y : ℚ) (terrain : ℕ → ℕ → ℚ) : ℚ :=
  let gridX : ℤ := ⌊x * (GRID_SIZE : ℚ)⌋
  let gridY : ℤ := ⌊y * (GRID_SIZE : ℚ)⌋
  let clampedX : ℤ := max 0 (min ((GRID_SIZE : ℤ) - 1) gridX)
  let clampedY : ℤ := max 0 (min ((GRID_SIZE : ℤ) - 1) gridY)
  terrain clampedX.toNat clampedY.toNat

/-- Source lines 196-201, factored through the distance
`|moisture − OptimalMoisture|`. -/
def moistureFitnessOfDistance (d : ℚ) : ℚ :=
  max 0 (1 - d * 2)

/-- Source lines 196-201, taking the terrain directly. -/
def getMoistureFitnessT (tree : Tree) (terrain : ℕ → ℕ → ℚ) : ℚ :=
  let moisture := getMoisture tree.x tree.y terrain
  let distance := |moisture - tree.characteristics.OptimalMoisture|
  max 0 (1 - distance * 2)

/-- Source lines 196-201 (`getMoistureFitness(tree, ecosystem)`). -/
def getMoistureFitness (tree : Tree) (eco : Ecosystem) : ℚ :=
  getMoistureFitnessT tree eco.terrain

/-- JS truncation toward zero, used to model the JS `%` operator. -/
def jsTrunc (q : ℚ) : ℤ :=
  if 0 ≤ q then ⌊q⌋ else -⌊-q⌋

/-- The JS `%` (remainder) operator on finite operands; the source only uses
it as `(v + 1) % 1` for toroidal wrap-around.  (`a % 0` is NaN in JS and
unreachable here; the `0` default is a harmless total-function stub.) -/
def jsRemainder (a b : ℚ) : ℚ :=
  if b = 0 then 0 else a - b * (jsTrunc (a / b) : ℚ)

-- Grid utilities

/-- Insertion of a tree into its grid bucket, appending at the end
(`grid.set(cell, [...(grid.get(cell) || []), tree])`, source line 420, and
`cellTrees.push(tree)`, source line 652). -/
def gridInsert (grid : ℤ × ℤ → List Tree) (t : Tree) : ℤ × ℤ → List Tree :=
  fun c => if c = cellKey t then grid c ++ [t] else grid c

/-- Removal of the first element with the given id
(`cell.findIndex((t) => t.id === tree.id)` + `splice`, source lines 523-526). -/
def removeFirstById : List Tree → ℕ → List Tree
  | [], _ => []
  | t :: ts, i => if t.id = i then ts else t :: removeFirstById ts i

/-- Source lines 518-527: delete a tree (by id) from the bucket of its cell;
a no-op when absent. -/
def deleteFromGrid (grid : ℤ × ℤ → List Tree) (t : Tree) : ℤ × ℤ → List Tree :=
  fun c => if c = cellKey t then removeFirstById (grid c) t.id else grid c

/-- Explicit form of the source's reference aliasing: the grid buckets hold
the same `Tree` objects as the population array, so an in-place mutation of a
tree's `age`/`size` is immediately visible in its bucket.  The embedding
applies this substitution (by id, position unchanged) whenever a tree's
fields are mutated. -/
def replaceInGridById (grid : ℤ × ℤ → List Tree) (t' : Tree) : ℤ × ℤ → List Tree :=
  fun c =>
    if c = cellKey t' then (grid c).map (fun u => if u.id = t'.id then t' else u)
    else grid c

/-- The 3×3 block of cell offsets scanned by every neighborhood query
(`for dx/dy in -1..1`). -/
def cellOffsets : List ℤ := [-1, 0, 1]

/-- Source lines 464-480 (`getTreesInNeighborhood`), reading only the grid. -/
def treesInNeighborhoodGrid (grid : ℤ × ℤ → List Tree) (x y : ℚ) : List Tree :=
  let c := getCell x y
  cellOffsets.flatMap fun dx => cellOffsets.flatMap fun dy => grid (c.1 + dx, c.2 + dy)

/-- Source lines 464-480. -/
def getTreesInNeighborhood (x y : ℚ) (eco : Ecosystem) : List Tree :=
  treesInNeighborhoodGrid eco.grid x y

/-- Source lines 483-498: deer whose cell is within the 3×3 block of the
query cell (an exhaustive scan over the deer list). -/
def getDeerInNeighborhood (deerList : List Deer) (x y : ℚ) : List Deer :=
  let c := getCell x y
  deerList.filter fun d =>
    let dc := getCell d.x d.y
    decide (|dc.1 - c.1| ≤ 1 ∧ |dc.2 - c.2| ≤ 1)

/-- Source lines 501-516: wolves whose cell is within the 3×3 block of the
query cell. -/
def getWolvesInNeighborhood (wolves : List Wolf) (x y : ℚ) : List Wolf :=
  let c := getCell x y
  wolves.filter fun w =>
    let wc := getCell w.x w.y
    decide (|wc.1 - c.1| ≤ 1 ∧ |wc.2 - c.2| ≤ 1)

-- Crowdedness (source lines 530-562)

/-- The contribution of one neighbouring tree `t` to the crowdedness of
`tree` (source lines 542-556); the `continue` cases contribute `0`. -/
def proximityContribution (M : MathFns) (tree t : Tree) : ℚ :=
  if t.id = tree.id then 0
  else if t.size ≤ tree.size then 0
  else
    let maxDistance := t.characteristics.SpreadDistance
    let distanceSquared := (t.x - tree.x) ^ 2 + (t.y - tree.y) ^ 2
    let maxDistanceSquared := maxDistance * maxDistance
    if distanceSquared < maxDistanceSquared then
      (maxDistance - M.sqrt distanceSquared) / maxDistance
    else 0

/-- Source lines 530-562, reading only the grid: sum the contributions over
the 3×3 neighbourhood and clamp to at most 1. -/
def crowdednessGrid (M : MathFns) (tree : Tree) (grid : ℤ × ℤ → List Tree) : ℚ :=
  let c := cellKey tree
  let contributions :=
    cellOffsets.flatMap fun dx => cellOffsets.flatMap fun dy =>
      (grid (c.1 + dx, c.2 + dy)).map (proximityContribution M tree)
  min 1 contributions.sum

/-- Source lines 530-562 (`crowdedness(tree, ecosystem)`). -/
def crowdedness (M : MathFns) (tree : Tree) (eco : Ecosystem) : ℚ :=
  crowdednessGrid M tree eco.grid

-- Random characteristics (source lines 150-183)

/-- Source lines 150-160; note `SpreadDistance` is scaled by
`ECOSYSTEM_SCALE` after being sampled inside its bound table. -/
def randomTreeCharacteristics (r : Rng) (k : ℕ) : TreeCharacteristics × ℕ :=
  let (ms, k1) := randomInRange r k TREE_BOUNDS.MaxSize.min TREE_BOUNDS.MaxSize.max
  let (ats, k2) := randomInRange r k1 TREE_BOUNDS.AgeToSpread.min TREE_BOUNDS.AgeToSpread.max
  let (sd, k3) := randomInRange r k2 TREE_BOUNDS.SpreadDistance.min TREE_BOUNDS.SpreadDistance.max
  let (dc, k4) := randomInRange r k3 TREE_BOUNDS.DeathChance.min TREE_BOUNDS.DeathChance.max
  let (sc, k5) := randomInRange r k4 TREE_BOUNDS.SpreadChance.min TREE_BOUNDS.SpreadChance.max
  let (om, k6) := randomInRange r k5 TREE_BOUNDS.OptimalMoisture.min TREE_BOUNDS.OptimalMoisture.max
  let (cs, k7) := randomInRange r k6 TREE_BOUNDS.CrowdingSusceptibility.min TREE_BOUNDS.CrowdingSusceptibility.max
  ({ MaxSize := ms, AgeToSpread := ats, SpreadDistance := sd * ECOSYSTEM_SCALE,
     DeathChance := dc, SpreadChance := sc, OptimalMoisture := om,
     CrowdingSusceptibility := cs }, k7)

/-- Source lines 162-172; `Speed` is scaled by `ECOSYSTEM_SCALE`. -/
def randomDeerCharacteristics (r : Rng) (k : ℕ) : DeerCharacteristics × ℕ :=
  let (ms, k1) := randomInRange r k DEER_BOUNDS.MaxSize.min DEER_BOUNDS.MaxSize.max
  let (sp, k2) := randomInRange r k1 DEER_BOUNDS.Speed.min DEER_BOUNDS.Speed.max
  let (dc, k3) := randomInRange r k2 DEER_BOUNDS.DeathChance.min DEER_BOUNDS.DeathChance.max
  let (rc, k4) := randomInRange r k3 DEER_BOUNDS.ReproduceChance.min DEER_BOUNDS.ReproduceChance.max
  let (cs, k5) := randomInRange r k4 DEER_BOUNDS.CrowdingSusceptibility.min DEER_BOUNDS.CrowdingSusceptibility.max
  let (mes, k6) := randomInRange r k5 DEER_BOUNDS.MaxEatableSize.min DEER_BOUNDS.MaxEatableSize.max
  let (en, k7) := randomInRange r k6 DEER_BOUNDS.EnergyNeeds.min DEER_BOUNDS.EnergyNeeds.max
  ({ MaxSize := ms, Speed := sp * ECOSYSTEM_SCALE, DeathChance := dc,
     ReproduceChance := rc, CrowdingSusceptibility := cs,
     MaxEatableSize := mes, EnergyNeeds := en }, k7)

/-- Source lines 174-183; `Speed` is scaled by `ECOSYSTEM_SCALE`. -/
def randomWolfCharacteristics (r : Rng) (k : ℕ) : WolfCharacteristics × ℕ :=
  let (ms, k1) := randomInRange r k WOLF_BOUNDS.MaxSize.min WOLF_BOUNDS.MaxSize.max
  let (sp, k2) := randomInRange r k1 WOLF_BOUNDS.Speed.min WOLF_BOUNDS.Speed.max
  let (dc, k3) := randomInRange r k2 WOLF_BOUNDS.DeathChance.min WOLF_BOUNDS.DeathChance.max
  let (rc, k4) := randomInRange r k3 WOLF_BOUNDS.ReproduceChance.min WOLF_BOUNDS.ReproduceChance.max
  let (cs, k5) := randomInRange r k4 WOLF_BOUNDS.CrowdingSusceptibility.min WOLF_BOUNDS.CrowdingSusceptibility.max
  let (en, k6) := randomInRange r k5 WOLF_BOUNDS.EnergyNeeds.min WOLF_BOUNDS.EnergyNeeds.max
  ({ MaxSize := ms, Speed := sp * ECOSYSTEM_SCALE, DeathChance := dc,
     ReproduceChance := rc, CrowdingSusceptibility := cs,
     EnergyNeeds := en }, k6)

-- Terrain generation (source lines 295-315)

/-- Source lines 295-315: a static moisture grid from overlaid sine waves,
clamped into `[0, 1]`.  Indices outside the `GRID_SIZE × GRID_SIZE` array are
never read (lookups clamp first); they default to `0`. -/
def generateTerrain (M : MathFns) : ℕ → ℕ → ℚ := fun x y =>
  if x < GRID_SIZE ∧ y < GRID_SIZE then
    let nx : ℚ := (x : ℚ) / (GRID_SIZE : ℚ)
    let ny : ℚ := (y : ℚ) / (GRID_SIZE : ℚ)
    let wave1 := 1/2 * M.sin (nx * M.pi * 2 * (13/10)) * M.cos (ny * M.pi * 2 * (9/10))
    let wave2 := 3/10 * M.sin (nx * M.pi * 2 * (27/10) + 12/10) * M.sin (ny * M.pi * 2 * (21/10))
    let moisture := (wave1 + wave2 + 1) / 2
    max 0 (min 1 moisture)
  else 0

-- Default initial counts (source lines 394-396)
def DEFAULT_TREE_COUNT : ℕ := 120
def DEFAULT_DEER_COUNT : ℕ := 30
def DEFAULT_WOLF_COUNT : ℕ := 6

-- Initialization (source lines 399-454)

/-- The tree-creation loop of `initializeEcosystem` (source lines 409-421):
draw a position and characteristics, push the tree and insert it into its
grid bucket. -/
def initTreesAux (r : Rng) : ℕ → ℕ → ℕ → List Tree → (ℤ × ℤ → List Tree) →
    List Tree × (ℤ × ℤ → List Tree) × ℕ × ℕ
  | 0, nextId, k, acc, grid => (acc, grid, nextId, k)
  | n + 1, nextId, k, acc, grid =>
    let x := r k
    let y := r (k + 1)
    let (chars, k1) := randomTreeCharacteristics r (k + 2)
    let tree : Tree := { id := nextId, x := x, y := y, age := 0, size := 0, characteristics := chars }
    initTreesAux r n (nextId + 1) k1 (acc ++ [tree]) (gridInsert grid tree)

/-- The deer-creation loop of `initializeEcosystem` (source lines 423-433);
initial energy 1.5. -/
def initDeerAux (r : Rng) : ℕ → ℕ → ℕ → List Deer → List Deer × ℕ × ℕ
  | 0, nextId, k, acc => (acc, nextId, k)
  | n + 1, nextId, k, acc =>
    let x := r k
    let y := r (k + 1)
    let (chars, k1) := randomDeerCharacteristics r (k + 2)
    let d : Deer := { id := nextId, x := x, y := y, age := 0, energy := 3/2, characteristics := chars }
    initDeerAux r n (nextId + 1) k1 (acc ++ [d])

/-- The wolf-creation loop of `initializeEcosystem` (source lines 435-445);
initial energy 1.5. -/
def initWolvesAux (r : Rng) : ℕ → ℕ → ℕ → List Wolf → List Wolf × ℕ × ℕ
  | 0, nextId, k, acc => (acc, nextId, k)
  | n + 1, nextId, k, acc =>
    let x := r k
    let y := r (k + 1)
    let (chars, k1) := randomWolfCharacteristics r (k + 2)
    let w : Wolf := { id := nextId, x := x, y := y, age := 0, energy := 3/2, characteristics := chars }
    initWolvesAux r n (nextId + 1) k1 (acc ++ [w])

/-- Source lines 399-454: `initializeEcosystem`, with the id counters
starting at 0 as in a fresh module instance. -/
def initializeEcosystem (M : MathFns) (r : Rng) (k : ℕ) : SimState × ℕ :=
  let terrain := generateTerrain M
  let (trees, grid, nTid, k1) := initTreesAux r DEFAULT_TREE_COUNT 0 k [] (fun _ => [])
  let (deerL, nDid, k2) := initDeerAux r DEFAULT_DEER_COUNT 0 k1 []
  let (wolvesL, nWid, k3) := initWolvesAux r DEFAULT_WOLF_COUNT 0 k2 []
  ({ eco := { trees := trees, grid := grid, deer := deerL, wolves := wolvesL, terrain := terrain },
     nextTreeId := nTid, nextDeerId := nDid, nextWolfId := nWid }, k3)

-- ===== TREE UPDATES ===== (source lines 565-656)

/-- The susceptibility normalization shared by the growth-reduction and
crowding-death computations (source lines 585-586 and 600-601). -/
def normalizedSusceptibility (cs : ℚ) : ℚ :=
  (cs - TREE_BOUNDS.CrowdingSusceptibility.min) /
    (TREE_BOUNDS.CrowdingSusceptibility.max - TREE_BOUNDS.CrowdingSusceptibility.min)

/-- Source lines 588-590: minimum reduction plus an additional reduction
scaled by the normalized susceptibility. -/
def crowdingEffect (cs : ℚ) : ℚ :=
  MIN_CROWDING_GROWTH_REDUCTION + (1 - MIN_CROWDING_GROWTH_REDUCTION) * normalizedSusceptibility cs

/-- Source lines 603-605: the crowding-death multiplier. -/
def crowdingDeathMultiplier (cs : ℚ) : ℚ :=
  MIN_CROWDING_DEATH_MULTIPLIER + (1 - MIN_CROWDING_DEATH_MULTIPLIER) * normalizedSusceptibility cs

/-- Source lines 580-593: base growth of 1 modified by moisture fitness, then
reduced by crowding when the density is positive. -/
def growthAmount (fit crowd cs : ℚ) : ℚ :=
  let growth := 1 * fit
  if 0 < crowd then growth * (1 - crowd * crowdingEffect cs) else growth

/-- Source lines 924-934: candidate offspring location; `none` when it falls
outside the unit square.  Consumes three draws: the angle and one magnitude
for each axis. -/
def newLocation (M : MathFns) (r : Rng) (k : ℕ) (tree : Tree) : Option (ℚ × ℚ) × ℕ :=
  let dist := tree.characteristics.SpreadDistance
  let angle := r k * 2 * M.pi
  let newX := tree.x + M.cos angle * dist * r (k + 1)
  let newY := tree.y + M.sin angle * dist * r (k + 2)
  (if 1 < newX ∨ newX < 0 ∨ 1 < newY ∨ newY < 0 then none else some (newX, newY), k + 3)

/-- Result of processing one tree in the filter callback: the (mutated) tree,
whether it survives, its offspring if any, and the updated id counter and
random cursor. -/
structure TreeStepOut where
  tree : Tree
  keep : Bool
  born : Option Tree
  nextId : ℕ
  k : ℕ
  deriving DecidableEq

/-- The part of the tree filter callback after the growth block: natural
death (source lines 616-619) then reproduction (source lines 622-641). -/
def treeStepRest (M : MathFns) (r : Rng) (terrain : ℕ → ℕ → ℚ) (t2 : Tree)
    (nextId k : ℕ) : TreeStepOut :=
  if r k < t2.characteristics.DeathChance then
    { tree := t2, keep := false, born := none, nextId := nextId, k := k + 1 }
  else
    let k1 := k + 1
    if t2.characteristics.AgeToSpread < t2.age then
      let moistureFitness := getMoistureFitnessT t2 terrain
      let spreadChance := t2.characteristics.SpreadChance * moistureFitness
      if r k1 < spreadChance then
        match newLocation M r (k1 + 1) t2 with
        | (some (nx, ny), k2) =>
          { tree := t2, keep := true,
            born := some { id := nextId, x := nx, y := ny, age := 0, size := 0,
                           characteristics := t2.characteristics },
            nextId := nextId + 1, k := k2 }
        | (none, k2) => { tree := t2, keep := true, born := none, nextId := nextId, k := k2 }
      else { tree := t2, keep := true, born := none, nextId := nextId, k := k1 + 1 }
    else { tree := t2, keep := true, born := none, nextId := nextId, k := k1 }

/-- The full tree filter callback (source lines 569-643) for the tree at
original index `i`: age increment, growth and crowding death (only while
`size < MaxSize`), then natural death and reproduction.  The density is the
positionally indexed precalculated value when one is supplied, else the
in-process `crowdedness` over the current grid. -/
def treeStepCore (M : MathFns) (r : Rng) (precalc : Option (ℕ → ℚ))
    (terrain : ℕ → ℕ → ℚ) (grid : ℤ × ℤ → List Tree) (t : Tree)
    (i nextId k : ℕ) : TreeStepOut :=
  let t1 : Tree := { t with age := t.age + 1 }
  if t1.size < t1.characteristics.MaxSize then
    let moistureFitness := getMoistureFitnessT t1 terrain
    let crowd :=
      match precalc with
      | some f => f i
      | none => crowdednessGrid M t1 grid
    let growth := growthAmount moistureFitness crowd t1.characteristics.CrowdingSusceptibility
    let t2 : Tree := { t1 with size := min t1.characteristics.MaxSize (t1.size + max 0 growth) }
    if 0 < crowd then
      let crowdedDeathChance :=
        TREE_CROWDED_DEATH_BASE * crowd * crowdingDeathMultiplier t2.characteristics.CrowdingSusceptibility
      if r k < crowdedDeathChance then
        { tree := t2, keep := false, born := none, nextId := nextId, k := k + 1 }
      else treeStepRest M r terrain t2 nextId (k + 1)
    else treeStepRest M r terrain t2 nextId k
  else treeStepRest M r terrain t1 nextId k

/-- The behaviour of the filter callback for a fully grown tree
(`size = MaxSize`): only the age increment, natural death and reproduction
run; no moisture-fitness, density, growth or crowding-death computation. -/
def matureTreeStep (M : MathFns) (r : Rng) (terrain : ℕ → ℕ → ℚ) (t : Tree)
    (nextId k : ℕ) : TreeStepOut :=
  treeStepRest M r terrain { t with age := t.age + 1 } nextId k

/-- Cumulative state of the tree pass: surviving trees in order, the grid,
the id counter, the random cursor, and the `newTrees` accumulator. -/
structure TreePassOut where
  kept : List Tree
  grid : ℤ × ℤ → List Tree
  nextId : ℕ
  k : ℕ
  born : List Tree

/-- The tree filter loop (source lines 569-644): process the pending trees in
order, keeping the grid aliased to each tree's mutated state, deleting dead
trees from the grid immediately, and accumulating offspring. -/
def treePassAux (M : MathFns) (r : Rng) (precalc : Option (ℕ → ℚ))
    (terrain : ℕ → ℕ → ℚ) :
    List Tree → ℕ → (ℤ × ℤ → List Tree) → ℕ → ℕ → List Tree → TreePassOut
  | [], _, grid, nextId, k, born =>
    { kept := [], grid := grid, nextId := nextId, k := k, born := born }
  | t :: rest, i, grid, nextId, k, born =>
    let res := treeStepCore M r precalc terrain grid t i nextId k
    let g1 := replaceInGridById grid res.tree
    let g2 := if res.keep then g1 else deleteFromGrid g1 res.tree
    let out := treePassAux M r precalc terrain rest (i + 1) g2 res.nextId res.k
      (born ++ res.born.toList)
    { out with kept := (if res.keep then [res.tree] else []) ++ out.kept }

/-- Source lines 565-656: the whole tree section of `updateEcosystem` — the
filter, then appending the new trees to the population and inserting them
into the grid. -/
def treeUpdates (M : MathFns) (r : Rng) (precalc : Option (ℕ → ℚ))
    (s : SimState) (k : ℕ) : SimState × ℕ :=
  let out := treePassAux M r precalc s.eco.terrain s.eco.trees 0 s.eco.grid s.nextTreeId k []
  let trees' := out.kept ++ out.born
  let grid' := out.born.foldl gridInsert out.grid
  ({ s with
      eco := { s.eco with trees := trees', grid := grid' },
      nextTreeId := out.nextId }, out.k)

-- ===== DEER UPDATES ===== (source lines 658-800)

/-- Source lines 668-679: the closest tree of eatable size among the
neighbourhood trees (the initial `closestDistance` of `Infinity` means the
first qualifying tree is always adopted; replacement requires a strictly
smaller distance). -/
def findClosestEatable (M : MathFns) (d : Deer) (ts : List Tree) : Option Tree :=
  (ts.foldl
    (fun acc tree =>
      if tree.size ≤ d.characteristics.MaxEatableSize then
        let dist := M.sqrt ((tree.x - d.x) ^ 2 + (tree.y - d.y) ^ 2)
        match acc with
        | none => some (tree, dist)
        | some (bt, bd) => if dist < bd then some (tree, dist) else some (bt, bd)
      else acc)
    none).map (fun p => p.1)

/-- Source lines 697-707: the nearest wolf, skipping a wolf whose id equals
the deer's id (the source's defensive self-check). -/
def findNearestWolf (M : MathFns) (d : Deer) (ws : List Wolf) : Option Wolf :=
  (ws.foldl
    (fun acc w =>
      if w.id = d.id then acc
      else
        let dist := M.sqrt ((w.x - d.x) ^ 2 + (w.y - d.y) ^ 2)
        match acc with
        | none => some (w, dist)
        | some (bw, bd) => if dist < bd then some (w, dist) else some (bw, bd))
    none).map (fun p => p.1)

/-- Source lines 737-748: the backward scan of `ecosystem.trees` for the
first tree (from the end) within eating radius and of eatable size; returns
its index.  The argument is the scan bound (`trees.length` initially). -/
def eatScan (M : MathFns) (d : Deer) (trees : List Tree) : ℕ → Option ℕ
  | 0 => none
  | j + 1 =>
    let tree := trees.getD j defaultTree
    let dist := M.sqrt ((tree.x - d.x) ^ 2 + (tree.y - d.y) ^ 2)
    if dist < DEER_EATING_RADIUS_BASE * ECOSYSTEM_SCALE ∧
        tree.size ≤ d.characteristics.MaxEatableSize then some j
    else eatScan M d trees j

def eatIndex (M : MathFns) (d : Deer) (trees : List Tree) : Option ℕ :=
  eatScan M d trees trees.length

/-- Source lines 755-762: count of other deer within the crowding radius,
over the current (partially mutated) deer array. -/
def countCrowdDeer (M : MathFns) (d : Deer) (arr : List Deer) : ℕ :=
  (arr.filter fun o =>
    decide (o.id ≠ d.id ∧
      M.sqrt ((o.x - d.x) ^ 2 + (o.y - d.y) ^ 2) < DEER_CROWDING_RADIUS_BASE * ECOSYSTEM_SCALE)).length

/-- Cumulative state of the deer pass.  `arr` is the deer array being
mutated element-wise in place (as the JS filter callback does through object
references); `keeps` records the filter verdicts in index order. -/
structure DeerPassSt where
  arr : List Deer
  keeps : List Bool
  trees : List Tree
  grid : ℤ × ℤ → List Tree
  born : List Deer
  nextId : ℕ
  k : ℕ

/-- The deer movement block (source lines 665-729): seek the closest eatable
tree when hungry, otherwise flee the nearest wolf (with the zero-distance
guard), otherwise move in a random direction.  Only the position changes. -/
def deerMove (M : MathFns) (r : Rng) (grid : ℤ × ℤ → List Tree) (wolves : List Wolf)
    (d1 : Deer) (k : ℕ) : Deer × ℕ :=
  if d1.energy < DEER_REPRODUCE_THRESHOLD then
    let nearbyTrees := treesInNeighborhoodGrid grid d1.x d1.y
    match findClosestEatable M d1 nearbyTrees with
    | some tt =>
      let dx := tt.x - d1.x
      let dy := tt.y - d1.y
      let distance := M.sqrt (dx * dx + dy * dy)
      ({ d1 with x := d1.x + dx / distance * d1.characteristics.Speed,
                 y := d1.y + dy / distance * d1.characteristics.Speed }, k)
    | none =>
      let angle := r k * M.pi * 2
      ({ d1 with x := d1.x + M.cos angle * d1.characteristics.Speed,
                 y := d1.y + M.sin angle * d1.characteristics.Speed }, k + 1)
  else
    let nearbyWolves := getWolvesInNeighborhood wolves d1.x d1.y
    match findNearestWolf M d1 nearbyWolves with
    | some w =>
      let dx := d1.x - w.x
      let dy := d1.y - w.y
      let distance := M.sqrt (dx * dx + dy * dy)
      if 0 < distance then
        ({ d1 with x := d1.x + dx / distance * d1.characteristics.Speed,
                   y := d1.y + dy / distance * d1.characteristics.Speed }, k)
      else
        let angle := r k * M.pi * 2
        ({ d1 with x := d1.x + M.cos angle * d1.characteristics.Speed,
                   y := d1.y + M.sin angle * d1.characteristics.Speed }, k + 1)
    | none =>
      let angle := r k * M.pi * 2
      ({ d1 with x := d1.x + M.cos angle * d1.characteristics.Speed,
                 y := d1.y + M.sin angle * d1.characteristics.Speed }, k + 1)

/-- The deer eating block (source lines 736-749): consume the scanned tree
(removing it from both the population and the grid) and gain energy. -/
def deerEat (M : MathFns) (trees : List Tree) (grid : ℤ × ℤ → List Tree) (d3 : Deer) :
    List Tree × (ℤ × ℤ → List Tree) × Deer :=
  if d3.energy < DEER_MAX_ENERGY then
    match eatIndex M d3 trees with
    | some j =>
      let tree := trees.getD j defaultTree
      (trees.eraseIdx j, deleteFromGrid grid tree,
        { d3 with energy := min DEER_MAX_ENERGY (d3.energy + tree.size * (1/10)) })
    | none => (trees, grid, d3)
  else (trees, grid, d3)

/-- The deer filter callback for index `i` (source lines 661-797): age,
movement (seek food / flee / random), toroidal wrap, eating, energy decay,
crowding, death resolution with the extinction floor, reproduction. -/
def deerStepAt (M : MathFns) (r : Rng) (wolves : List Wolf) (immortalDeer : Bool)
    (st : DeerPassSt) (i : ℕ) : DeerPassSt :=
  let d0 := st.arr.getD i defaultDeer
  let d1 : Deer := { d0 with age := d0.age + 1 }
  -- Movement (source lines 665-729)
  let mv := deerMove M r st.grid wolves d1 st.k
  let d2 := mv.1
  let k1 := mv.2
  -- Wrap around edges (source lines 732-733)
  let d3 : Deer := { d2 with x := jsRemainder (d2.x + 1) 1, y := jsRemainder (d2.y + 1) 1 }
  -- Eating (source lines 736-749)
  let eat := deerEat M st.trees st.grid d3
  let trees1 := eat.1
  let grid1 := eat.2.1
  let d4 := eat.2.2
  -- Energy decay (source line 752)
  let d5 : Deer := { d4 with energy := max 0 (d4.energy - d4.characteristics.EnergyNeeds) }
  let arr1 := st.arr.set i d5
  -- Crowding (source lines 755-762)
  let nearbyDeer := countCrowdDeer M d5 arr1
  -- Death resolution (source lines 765-778)
  let deathChance := d5.characteristics.DeathChance +
    (nearbyDeer : ℚ) * DEER_CROWDING_DEATH_PENALTY * d5.characteristics.CrowdingSusceptibility
  let deathChance := if d5.energy < 3/10 then deathChance + (3/10 - d5.energy) * (1/100) else deathChance
  let isLastDeer : Bool := arr1.length == 1
  let shouldPreventDeath : Bool := immortalDeer && isLastDeer
  let death : Bool × ℕ :=
    if shouldPreventDeath then (false, k1)
    else (if r k1 < deathChance then true else false, k1 + 1)
  if death.1 then
    { st with arr := arr1, keeps := st.keeps ++ [false], trees := trees1, grid := grid1,
              k := death.2 }
  else
    -- Reproduction (source lines 781-795)
    let k2 := death.2
    let rep : List Deer × ℕ × Deer × ℕ :=
      if DEER_REPRODUCE_AGE < d5.age ∧ DEER_REPRODUCE_THRESHOLD ≤ d5.energy then
        if r k2 < d5.characteristics.ReproduceChance then
          let babyDeer : Deer :=
            { id := st.nextId, x := d5.x + (r (k2 + 1) - 1/2) * (5/100),
              y := d5.y + (r (k2 + 2) - 1/2) * (5/100), age := 0, energy := 1,
              characteristics := d5.characteristics }
          (st.born ++ [babyDeer], st.nextId + 1,
            { d5 with energy := d5.energy - DEER_REPRODUCTION_COST }, k2 + 3)
        else (st.born, st.nextId, d5, k2 + 1)
      else (st.born, st.nextId, d5, k2)
    { arr := arr1.set i rep.2.2.1, keeps := st.keeps ++ [true], trees := trees1, grid := grid1,
      born := rep.1, nextId := rep.2.1, k := rep.2.2.2 }

/-- The deer filter loop, processing indices `i, i+1, ...` while the fuel
lasts. -/
def deerPassAux (M : MathFns) (r : Rng) (wolves : List Wolf) (immortalDeer : Bool) :
    ℕ → ℕ → DeerPassSt → DeerPassSt
  | 0, _, st => st
  | n + 1, i, st => deerPassAux M r wolves immortalDeer n (i + 1) (deerStepAt M r wolves immortalDeer st i)

/-- The filter's result: the elements whose verdict was `true`, in order. -/
def applyKeeps {α : Type} (arr : List α) (keeps : List Bool) : List α :=
  ((arr.zip keeps).filter fun p => p.2).map (fun p => p.1)

/-- Source lines 658-800: the whole deer section of `updateEcosystem` — the
filter over the deer array, then appending the newborn deer. -/
def deerUpdates (M : MathFns) (r : Rng) (immortalDeer : Bool) (s : SimState) (k : ℕ) :
    SimState × ℕ :=
  let st0 : DeerPassSt :=
    { arr := s.eco.deer, keeps := [], trees := s.eco.trees, grid := s.eco.grid,
      born := [], nextId := s.nextDeerId, k := k }
  let stF := deerPassAux M r s.eco.wolves immortalDeer s.eco.deer.length 0 st0
  let deer' := applyKeeps stF.arr stF.keeps ++ stF.born
  ({ s with
      eco := { s.eco with deer := deer', trees := stF.trees, grid := stF.grid },
      nextDeerId := stF.nextId }, stF.k)

-- ===== WOLF UPDATES ===== (source lines 802-921)

/-- Source lines 811-821: the nearest deer among the neighbourhood deer (no
self-skip; first candidate always adopted, replacement on strictly smaller
distance). -/
def findNearestDeer (M : MathFns) (w : Wolf) (ds : List Deer) : Option Deer :=
  (ds.foldl
    (fun acc d =>
      let dist := M.sqrt ((d.x - w.x) ^ 2 + (d.y - w.y) ^ 2)
      match acc with
      | none => some (d, dist)
      | some (bd', bdist) => if dist < bdist then some (d, dist) else some (bd', bdist))
    none).map (fun p => p.1)

/-- The kill-resolution loop body (source lines 849-868): scan the deer list
backward from index `j - 1`; on a deer within kill radius, break without a
roll if it is the last deer, otherwise roll — success removes it and feeds
the wolf (and breaks), failure continues the scan. -/
def wolfHuntAux (M : MathFns) (r : Rng) (wx wy : ℚ) :
    ℕ → List Deer → ℚ → ℕ → List Deer × ℚ × ℕ
  | 0, ds, e, k => (ds, e, k)
  | j + 1, ds, e, k =>
    let d := ds.getD j defaultDeer
    let distance := M.sqrt ((d.x - wx) ^ 2 + (d.y - wy) ^ 2)
    if distance < WOLF_KILL_RADIUS_BASE * ECOSYSTEM_SCALE then
      if ds.length == 1 then (ds, e, k)
      else if r k < WOLF_HUNT_SUCCESS_BASE then
        (ds.eraseIdx j,
          min WOLF_MAX_ENERGY (e + d.characteristics.MaxSize * (3/10)), k + 1)
      else wolfHuntAux M r wx wy j ds e (k + 1)
    else wolfHuntAux M r wx wy j ds e k

/-- Source lines 848-869: hunting happens only while the wolf is below max
energy. -/
def wolfHunt (M : MathFns) (r : Rng) (wx wy : ℚ) (ds : List Deer) (e : ℚ) (k : ℕ) :
    List Deer × ℚ × ℕ :=
  if e < WOLF_MAX_ENERGY then wolfHuntAux M r wx wy ds.length ds e k else (ds, e, k)

/-- Source lines 875-882: count of other wolves within the crowding radius. -/
def countCrowdWolf (M : MathFns) (w : Wolf) (arr : List Wolf) : ℕ :=
  (arr.filter fun o =>
    decide (o.id ≠ w.id ∧
      M.sqrt ((o.x - w.x) ^ 2 + (o.y - w.y) ^ 2) < WOLF_CROWDING_RADIUS_BASE * ECOSYSTEM_SCALE)).length

/-- Cumulative state of the wolf pass; `deer` is the (post-deer-pass)
`ecosystem.deer` array, spliced in place by hunts. -/
structure WolfPassSt where
  arr : List Wolf
  keeps : List Bool
  deer : List Deer
  born : List Wolf
  nextId : ℕ
  k : ℕ

/-- The wolf movement block (source lines 808-841): chase the nearest
neighbourhood deer when hungry, otherwise move randomly.  Only the position
changes. -/
def wolfMove (M : MathFns) (r : Rng) (deerList : List Deer) (w1 : Wolf) (k : ℕ) :
    Wolf × ℕ :=
  if w1.energy < WOLF_REPRODUCE_THRESHOLD then
    let nearbyDeer := getDeerInNeighborhood deerList w1.x w1.y
    match findNearestDeer M w1 nearbyDeer with
    | some d =>
      let dx := d.x - w1.x
      let dy := d.y - w1.y
      let distance := M.sqrt (dx * dx + dy * dy)
      ({ w1 with x := w1.x + dx / distance * w1.characteristics.Speed,
                 y := w1.y + dy / distance * w1.characteristics.Speed }, k)
    | none =>
      let angle := r k * M.pi * 2
      ({ w1 with x := w1.x + M.cos angle * w1.characteristics.Speed,
                 y := w1.y + M.sin angle * w1.characteristics.Speed }, k + 1)
  else
    let angle := r k * M.pi * 2
    ({ w1 with x := w1.x + M.cos angle * w1.characteristics.Speed,
               y := w1.y + M.sin angle * w1.characteristics.Speed }, k + 1)

/-- The wolf filter callback for index `i` (source lines 805-917): age,
movement (chase prey / random), toroidal wrap, hunting, energy decay,
crowding, death resolution with the extinction floor, reproduction. -/
def wolfStepAt (M : MathFns) (r : Rng) (immortalWolf : Bool)
    (st : WolfPassSt) (i : ℕ) : WolfPassSt :=
  let w0 := st.arr.getD i defaultWolf
  let w1 : Wolf := { w0 with age := w0.age + 1 }
  -- Movement (source lines 808-841)
  let mv := wolfMove M r st.deer w1 st.k
  let w2 := mv.1
  let k1 := mv.2
  -- Wrap around edges (source lines 844-845)
  let w3 : Wolf := { w2 with x := jsRemainder (w2.x + 1) 1, y := jsRemainder (w2.y + 1) 1 }
  -- Hunting (source lines 848-869)
  let hunt := wolfHunt M r w3.x w3.y st.deer w3.energy k1
  let deer1 := hunt.1
  let w4 : Wolf := { w3 with energy := hunt.2.1 }
  let k2 := hunt.2.2
  -- Energy decay (source line 872)
  let w5 : Wolf := { w4 with energy := max 0 (w4.energy - w4.characteristics.EnergyNeeds) }
  let arr1 := st.arr.set i w5
  -- Crowding (source lines 875-882)
  let nearbyWolves := countCrowdWolf M w5 arr1
  -- Death resolution (source lines 885-898)
  let deathChance := w5.characteristics.DeathChance +
    (nearbyWolves : ℚ) * WOLF_CROWDING_DEATH_PENALTY * w5.characteristics.CrowdingSusceptibility
  let deathChance := if w5.energy < 3/10 then deathChance + (3/10 - w5.energy) * (1/100) else deathChance
  let isLastWolf : Bool := arr1.length == 1
  let shouldPreventWolfDeath : Bool := immortalWolf && isLastWolf
  let death : Bool × ℕ :=
    if shouldPreventWolfDeath then (false, k2)
    else (if r k2 < deathChance then true else false, k2 + 1)
  if death.1 then
    { st with arr := arr1, keeps := st.keeps ++ [false], deer := deer1, k := death.2 }
  else
    -- Reproduction (source lines 901-915)
    let k3 := death.2
    let rep : List Wolf × ℕ × Wolf × ℕ :=
      if WOLF_REPRODUCE_AGE < w5.age ∧ WOLF_REPRODUCE_THRESHOLD ≤ w5.energy then
        if r k3 < w5.characteristics.ReproduceChance then
          let babyWolf : Wolf :=
            { id := st.nextId, x := w5.x + (r (k3 + 1) - 1/2) * (5/100),
              y := w5.y + (r (k3 + 2) - 1/2) * (5/100), age := 0, energy := 3/2,
              characteristics := w5.characteristics }
          (st.born ++ [babyWolf], st.nextId + 1,
            { w5 with energy := w5.energy - WOLF_REPRODUCTION_COST }, k3 + 3)
        else (st.born, st.nextId, w5, k3 + 1)
      else (st.born, st.nextId, w5, k3)
    { arr := arr1.set i rep.2.2.1, keeps := st.keeps ++ [true], deer := deer1,
      born := rep.1, nextId := rep.2.1, k := rep.2.2.2 }

/-- The wolf filter loop. -/
def wolfPassAux (M : MathFns) (r : Rng) (immortalWolf : Bool) :
    ℕ → ℕ → WolfPassSt → WolfPassSt
  | 0, _, st => st
  | n + 1, i, st => wolfPassAux M r immortalWolf n (i + 1) (wolfStepAt M r immortalWolf st i)

/-- Source lines 802-920: the whole wolf section of `updateEcosystem`. -/
def wolfUpdates (M : MathFns) (r : Rng) (immortalWolf : Bool) (s : SimState) (k : ℕ) :
    SimState × ℕ :=
  let st0 : WolfPassSt :=
    { arr := s.eco.wolves, keeps := [], deer := s.eco.deer, born := [],
      nextId := s.nextWolfId, k := k }
  let stF := wolfPassAux M r immortalWolf s.eco.wolves.length 0 st0
  let wolves' := applyKeeps stF.arr stF.keeps ++ stF.born
  ({ s with
      eco := { s.eco with wolves := wolves', deer := stF.deer },
      nextWolfId := stF.nextId }, stF.k)

/-- Source lines 565-921: one tick.  The three species sections run strictly
in order — trees, then deer, then wolves — each over the state left by the
previous section. -/
def updateEcosystem (M : MathFns) (r : Rng) (precalc : Option (ℕ → ℚ))
    (immortalDeer immortalWolf : Bool) (s : SimState) (k : ℕ) : SimState × ℕ :=
  let t := treeUpdates M r precalc s k
  let d := deerUpdates M r immortalDeer t.1 t.2
  wolfUpdates M r immortalWolf d.1 d.2

-- ===== JS float semantics of the movement snippets =====

/-- JS numbers for the zero-distance analysis: a finite value, `NaN`, or a
signed infinity. -/
inductive JsNum where
  | num : ℚ → JsNum
  | nan : JsNum
  | inf : JsNum
  | ninf : JsNum
  deriving DecidableEq

/-- JS addition on the modelled values. -/
def jsAdd : JsNum → JsNum → JsNum
  | .num a, .num b => .num (a + b)
  | .num _, .inf => .inf
  | .inf, .num _ => .inf
  | .num _, .ninf => .ninf
  | .ninf, .num _ => .ninf
  | .inf, .inf => .inf
  | .ninf, .ninf => .ninf
  | _, _ => .nan

/-- JS subtraction. -/
def jsSub : JsNum → JsNum → JsNum
  | .num a, .num b => .num (a - b)
  | .num _, .inf => .ninf
  | .inf, .num _ => .inf
  | .num _, .ninf => .inf
  | .ninf, .num _ => .ninf
  | .inf, .ninf => .inf
  | .ninf, .inf => .ninf
  | _, _ => .nan

/-- JS multiplication (note `0 * Infinity = NaN`). -/
def jsMul : JsNum → JsNum → JsNum
  | .num a, .num b => .num (a * b)
  | .num a, .inf => if a = 0 then .nan else if 0 < a then .inf else .ninf
  | .inf, .num a => if a = 0 then .nan else if 0 < a then .inf else .ninf
  | .num a, .ninf => if a = 0 then .nan else if 0 < a then .ninf else .inf
  | .ninf, .num a => if a = 0 then .nan else if 0 < a then .ninf else .inf
  | .inf, .inf => .inf
  | .ninf, .ninf => .inf
  | .inf, .ninf => .ninf
  | .ninf, .inf => .ninf
  | _, _ => .nan

/-- JS division: `0 / 0 = NaN`, `a / 0 = ±Infinity` for `a ≠ 0`. -/
def jsDiv : JsNum → JsNum → JsNum
  | .num a, .num b =>
    if b = 0 then (if a = 0 then .nan else if 0 < a then .inf else .ninf)
    else .num (a / b)
  | .num _, .inf => .num 0
  | .num _, .ninf => .num 0
  | .inf, .num a => if 0 ≤ a then .inf else .ninf
  | .ninf, .num a => if 0 ≤ a then .ninf else .inf
  | _, _ => .nan

/-- JS `Math.sqrt` (negative arguments give `NaN`). -/
def jsSqrt (M : MathFns) : JsNum → JsNum
  | .num q => if q < 0 then .nan else .num (M.sqrt q)
  | .inf => .inf
  | _ => .nan

/-- Source lines 683-687 (deer seeking a target tree) and, identically,
lines 825-829 (wolf chasing a target deer), under JS float semantics: the
new coordinates after stepping toward the target at the given speed.  There
is no zero-distance guard in these two snippets. -/
def seekStepJs (M : MathFns) (entityX entityY targetX targetY speed : JsNum) :
    JsNum × JsNum :=
  let dx := jsSub targetX entityX
  let dy := jsSub targetY entityY
  let distance := jsSqrt M (jsAdd (jsMul dx dx) (jsMul dy dy))
  (jsAdd entityX (jsMul (jsDiv dx distance) speed),
   jsAdd entityY (jsMul (jsDiv dy distance) speed))

/-- The JS `<` comparison (any comparison involving `NaN` is false). -/
def jsLt : JsNum → JsNum → Bool
  | .num a, .num b => a < b
  | .num _, .inf => true
  | .ninf, .num _ => true
  | .ninf, .inf => true
  | _, _ => false

/-- Source lines 711-722 (deer fleeing the nearest wolf) under JS float
semantics: this snippet does guard the zero-distance case, falling back to a
random direction. -/
def fleeStepJs (M : MathFns) (entityX entityY threatX threatY speed cosAngle sinAngle : JsNum) :
    JsNum × JsNum :=
  let dx := jsSub entityX threatX
  let dy := jsSub entityY threatY
  let distance := jsSqrt M (jsAdd (jsMul dx dx) (jsMul dy dy))
  if jsLt (.num 0) distance then
    (jsAdd entityX (jsMul (jsDiv dx distance) speed),
     jsAdd entityY (jsMul (jsDiv dy distance) speed))
  else
    (jsAdd entityX (jsMul cosAngle speed),
     jsAdd entityY (jsMul sinAngle speed))

-- ===== Concrete model parameters for witnesses =====

/-- A concrete `MathFns` instance satisfying `SqrtSpec` (the constant-zero
square root); used to instantiate universally quantified theorems on
concrete inputs. -/
def mzero : MathFns := { sqrt := fun _ => 0, cos := fun _ => 0, sin := fun _ => 0, pi := 0 }

/-- The constant-zero random stream. -/
def rzero : Rng := fun _ => 0

-- ===== Invariants and specification predicates =====

/-- The tree population carries pairwise distinct ids (guaranteed by the
monotone id generator). -/
def treeIdsNodup (trees : List Tree) : Prop := (trees.map Tree.id).Nodup

/-- All tree ids are below the id counter. -/
def idsBelow (trees : List Tree) (n : ℕ) : Prop := ∀ t ∈ trees, t.id < n

/-- The strong grid invariant: every bucket is exactly the sublist of the
tree population whose positions fall in that cell. -/
def gridExact (trees : List Tree) (grid : ℤ × ℤ → List Tree) : Prop :=
  ∀ c, grid c = trees.filter fun t => decide (cellKey t = c)

/-- The claim-facing grid property: every live tree appears in exactly one
bucket — the one keyed by `(⌊x·GRID_SIZE⌋, ⌊y·GRID_SIZE⌋)` — exactly once,
and no bucket holds a tree absent from the population. -/
def gridIndexesTrees (eco : Ecosystem) : Prop :=
  (∀ t ∈ eco.trees, ∀ c, t ∈ eco.grid c ↔ c = cellKey t) ∧
  (∀ t ∈ eco.trees, (eco.grid (cellKey t)).count t = 1) ∧
  (∀ c, ∀ t ∈ eco.grid c, t ∈ eco.trees)

/-- The inductive invariant carried across ticks. -/
def gridInv (s : SimState) : Prop :=
  gridExact s.eco.trees s.eco.grid ∧ treeIdsNodup s.eco.trees ∧
    idsBelow s.eco.trees s.nextTreeId

/-- Membership in an inclusive bound. -/
def inBound (b : Bound) (q : ℚ) : Prop := b.min ≤ q ∧ q ≤ b.max

/-- A bound scaled by `ECOSYSTEM_SCALE`, as actually enforced by the code for
the distance-like traits. -/
def scaledBound (b : Bound) : Bound := ⟨b.min * ECOSYSTEM_SCALE, b.max * ECOSYSTEM_SCALE⟩

/-- Tree characteristics within the declared bound table, except that
`SpreadDistance` lies in the `ECOSYSTEM_SCALE`-scaled bounds. -/
def treeCharsWithinScaled (c : TreeCharacteristics) : Prop :=
  inBound TREE_BOUNDS.MaxSize c.MaxSize ∧
  inBound TREE_BOUNDS.AgeToSpread c.AgeToSpread ∧
  inBound (scaledBound TREE_BOUNDS.SpreadDistance) c.SpreadDistance ∧
  inBound TREE_BOUNDS.DeathChance c.DeathChance ∧
  inBound TREE_BOUNDS.SpreadChance c.SpreadChance ∧
  inBound TREE_BOUNDS.OptimalMoisture c.OptimalMoisture ∧
  inBound TREE_BOUNDS.CrowdingSusceptibility c.CrowdingSusceptibility

/-- Deer characteristics within the declared bound table, except that
`Speed` lies in the `ECOSYSTEM_SCALE`-scaled bounds. -/
def deerCharsWithinScaled (c : DeerCharacteristics) : Prop :=
  inBound DEER_BOUNDS.MaxSize c.MaxSize ∧
  inBound (scaledBound DEER_BOUNDS.Speed) c.Speed ∧
  inBound DEER_BOUNDS.DeathChance c.DeathChance ∧
  inBound DEER_BOUNDS.ReproduceChance c.ReproduceChance ∧
  inBound DEER_BOUNDS.CrowdingSusceptibility c.CrowdingSusceptibility ∧
  inBound DEER_BOUNDS.MaxEatableSize c.MaxEatableSize ∧
  inBound DEER_BOUNDS.EnergyNeeds c.EnergyNeeds

/-- Wolf characteristics within the declared bound table, except that
`Speed` lies in the `ECOSYSTEM_SCALE`-scaled bounds. -/
def wolfCharsWithinScaled (c : WolfCharacteristics) : Prop :=
  inBound WOLF_BOUNDS.MaxSize c.MaxSize ∧
  inBound (scaledBound WOLF_BOUNDS.Speed) c.Speed ∧
  inBound WOLF_BOUNDS.DeathChance c.DeathChance ∧
  inBound WOLF_BOUNDS.ReproduceChance c.ReproduceChance ∧
  inBound WOLF_BOUNDS.CrowdingSusceptibility c.CrowdingSusceptibility ∧
  inBound WOLF_BOUNDS.EnergyNeeds c.EnergyNeeds

/-- All three populations' characteristics lie within their (scaled) bound
tables. -/
def ecoCharsWithinScaled (eco : Ecosystem) : Prop :=
  (∀ t ∈ eco.trees, treeCharsWithinScaled t.characteristics) ∧
  (∀ d ∈ eco.deer, deerCharsWithinScaled d.characteristics) ∧
  (∀ w ∈ eco.wolves, wolfCharsWithinScaled w.characteristics)

/-- The tree population after a tick's producer pass consists of aged
survivors of the pre-pass population (same id, position and characteristics,
age incremented) and this tick's newborns (age 0, size 0, characteristics
cloned from a pre-pass parent). -/
def treeTickProvenance (before after : List Tree) : Prop :=
  ∀ t ∈ after,
    (∃ t0 ∈ before, t.id = t0.id ∧ t.age = t0.age + 1 ∧ t.x = t0.x ∧ t.y = t0.y ∧
      t.characteristics = t0.characteristics) ∨
    (t.age = 0 ∧ t.size = 0 ∧ ∃ t0 ∈ before, t.characteristics = t0.characteristics)

/-- The deer population after a tick's herbivore pass consists of updated
survivors (same id and characteristics as a pre-pass deer) and this tick's
newborns (age 0, characteristics cloned from a pre-pass parent). -/
def deerTickProvenance (before after : List Deer) : Prop :=
  ∀ d ∈ after,
    (∃ d0 ∈ before, d.id = d0.id ∧ d.characteristics = d0.characteristics) ∨
    (d.age = 0 ∧ ∃ d0 ∈ before, d.characteristics = d0.characteristics)

-- ===== Concrete inputs used to instantiate the theorems =====

/-- The constant one-half random stream. -/
def rhalf : Rng := fun _ => 1/2

def wTerrain : ℕ → ℕ → ℚ := fun _ _ => 0

def wTreeChars : TreeCharacteristics where
  MaxSize := 3
  AgeToSpread := 10
  SpreadDistance := 1/20
  DeathChance := 0
  SpreadChance := 0
  OptimalMoisture := 1
  CrowdingSusceptibility := 1

def wTree : Tree where
  id := 0
  x := 1/2
  y := 1/2
  age := 0
  size := 0
  characteristics := wTreeChars

/-- An ecosystem holding the single tree `wTree` (cell `(10, 10)`). -/
def wEcoTree : Ecosystem where
  trees := [wTree]
  grid := fun c => if c = (10, 10) then [wTree] else []
  deer := []
  wolves := []
  terrain := wTerrain

def wStateTree : SimState where
  eco := wEcoTree
  nextTreeId := 1
  nextDeerId := 0
  nextWolfId := 0

/-- A fully grown tree at the reproduction-age boundary: after this tick's
age increment its age equals `AgeToSpread`, and its size equals `MaxSize`. -/
def wTreeMature : Tree where
  id := 0
  x := 1/2
  y := 1/2
  age := 9
  size := 3
  characteristics := wTreeChars

def wDeerChars : DeerCharacteristics where
  MaxSize := 3
  Speed := 1/100
  DeathChance := 1
  ReproduceChance := 0
  CrowdingSusceptibility := 1
  MaxEatableSize := 5
  EnergyNeeds := 1/100

def wDeer : Deer where
  id := 0
  x := 1/4
  y := 1/4
  age := 0
  energy := 3/2
  characteristics := wDeerChars

def wWolfChars : WolfCharacteristics where
  MaxSize := 3
  Speed := 1/100
  DeathChance := 1
  ReproduceChance := 0
  CrowdingSusceptibility := 1
  EnergyNeeds := 1/100

def wWolf : Wolf where
  id := 0
  x := 3/4
  y := 3/4
  age := 0
  energy := 3/2
  characteristics := wWolfChars

/-- An ecosystem with exactly one deer and exactly one wolf. -/
def wEcoAnimals : Ecosystem where
  trees := []
  grid := fun _ => []
  deer := [wDeer]
  wolves := [wWolf]
  terrain := wTerrain

def wStateAnimals : SimState where
  eco := wEcoAnimals
  nextTreeId := 0
  nextDeerId := 1
  nextWolfId := 1

/-- The empty ecosystem. -/
def emptyEco : Ecosystem where
  trees := []
  grid := fun _ => []
  deer := []
  wolves := []
  terrain := wTerrain

def emptyState : SimState where
  eco := emptyEco
  nextTreeId := 0
  nextDeerId := 0
  nextWolfId := 0

/-- A tree whose optimal moisture totally mismatches the (everywhere-zero)
terrain of `wEcoTree`: the distance is exactly 1. -/
def mismatchTree : Tree where
  id := 1
  x := 1/2
  y := 1/2
  age := 0
  size := 0
  characteristics := wTreeChars

/-- A tree whose optimal moisture exactly matches the (everywhere-zero)
terrain of `wEcoTree`. -/
def matchTree : Tree where
  id := 2
  x := 1/2
  y := 1/2
  age := 0
  size := 0
  characteristics := { wTreeChars with OptimalMoisture := 0 }

/-- Every draw of the random stream lies in `[0, 1]`, as `Math.random()`
guarantees. -/
def rngIn01 (r : Rng) : Prop := ∀ j, 0 ≤ r j ∧ r j ≤ 1

/-- Tree characteristics strictly inside the declared bound table (with
`SpreadDistance` inside the scaled bounds). -/
def wTreeCharsB : TreeCharacteristics where
  MaxSize := 10
  AgeToSpread := 10
  SpreadDistance := 1/20
  DeathChance := 1/100
  SpreadChance := 1/10
  OptimalMoisture := 1
  CrowdingSusceptibility := 1

def wTreeB : Tree where
  id := 0
  x := 1/2
  y := 1/2
  age := 0
  size := 0
  characteristics := wTreeCharsB

/-- Deer characteristics inside the declared bound table (with `Speed`
inside the scaled bounds). -/
def wDeerCharsB : DeerCharacteristics where
  MaxSize := 3
  Speed := 1/200
  DeathChance := 1/20000
  ReproduceChance := 1/2
  CrowdingSusceptibility := 1
  MaxEatableSize := 5
  EnergyNeeds := 1/50

def wDeerB : Deer where
  id := 0
  x := 1/4
  y := 1/4
  age := 0
  energy := 2
  characteristics := wDeerCharsB

/-- Wolf characteristics inside the declared bound table (with `Speed`
inside the scaled bounds). -/
def wWolfCharsB : WolfCharacteristics where
  MaxSize := 3
  Speed := 1/100
  DeathChance := 1/10000
  ReproduceChance := 1/10
  CrowdingSusceptibility := 1
  EnergyNeeds := 1/20

def wWolfB : Wolf where
  id := 1
  x := 3/4
  y := 3/4
  age := 0
  energy := 2
  characteristics := wWolfCharsB

/-- An ecosystem with one tree, one deer and one wolf, every characteristic
within the (scaled) bound tables. -/
def wEcoBounds : Ecosystem where
  trees := [wTreeB]
  grid := fun c => if c = (10, 10) then [wTreeB] else []
  deer := [wDeerB]
  wolves := [wWolfB]
  terrain := wTerrain

def wStateBounds : SimState where
  eco := wEcoBounds
  nextTreeId := 1
  nextDeerId := 1
  nextWolfId := 2

-- ===== Theorems =====

/-- The constant-zero square root satisfies the `Math.sqrt` specification. -/
theorem sqrtSpec_mzero : SqrtSpec mzero := by
  constructor
  · intro q
    exact le_refl 0
  · intro q b hq hlt
    have hb : b ≠ 0 := by
      intro h
      rw [h] at hlt
      simp at hlt
      exact absurd (lt_of_le_of_lt hq hlt) (lt_irrefl 0)
    simpa [mzero] using abs_pos.mpr hb

/-- C3 (counterexample): at a total moisture mismatch (distance exactly 1)
the moisture fitness is exactly 0, not strictly positive — the fitness floor
is zero, contradicting the claimed nonzero floor. -/
theorem claimC3_counterexample :
    |getMoisture mismatchTree.x mismatchTree.y wEcoTree.terrain -
        mismatchTree.characteristics.OptimalMoisture| = 1 ∧
    getMoistureFitness mismatchTree wEcoTree = 0 := by
  constructor
  · norm_num [getMoisture, mismatchTree, wEcoTree, wTerrain, wTreeChars]
  · norm_num [getMoistureFitness, getMoistureFitnessT, getMoisture, mismatchTree, wEcoTree,
      wTerrain, wTreeChars]

/-- C3 (amended): moisture fitness is `max 0 (1 − 2·d)` of the moisture
distance `d`: it lies in `[0, 1]`, equals exactly 1 at a perfect match, and
is monotonically nonincreasing in the distance — but its floor is zero, not
positive: it vanishes for every distance at least 1/2. -/
theorem claimC3_moisture_fitness (tree : Tree) (eco : Ecosystem) :
    getMoistureFitness tree eco =
      moistureFitnessOfDistance
        |getMoisture tree.x tree.y eco.terrain - tree.characteristics.OptimalMoisture| ∧
    0 ≤ getMoistureFitness tree eco ∧
    getMoistureFitness tree eco ≤ 1 ∧
    (getMoisture tree.x tree.y eco.terrain = tree.characteristics.OptimalMoisture →
      getMoistureFitness tree eco = 1) ∧
    (∀ d1 d2 : ℚ, d1 ≤ d2 → moistureFitnessOfDistance d2 ≤ moistureFitnessOfDistance d1) ∧
    (∀ d : ℚ, 1/2 ≤ d → moistureFitnessOfDistance d = 0) := by
  refine ⟨rfl, le_max_left 0 _, ?_, ?_, ?_, ?_⟩
  · have h0 : (0 : ℚ) ≤ |getMoisture tree.x tree.y eco.terrain - tree.characteristics.OptimalMoisture| :=
      abs_nonneg _
    have : 1 - |getMoisture tree.x tree.y eco.terrain - tree.characteristics.OptimalMoisture| * 2 ≤ 1 := by
      nlinarith
    simpa [getMoistureFitness, getMoistureFitnessT] using max_le (by norm_num) this
  · intro h
    simp [getMoistureFitness, getMoistureFitnessT, h]
  · intro d1 d2 h
    have : 1 - d2 * 2 ≤ 1 - d1 * 2 := by linarith
    exact max_le_max le_rfl this
  · intro d hd
    have : 1 - d * 2 ≤ 0 := by linarith
    simpa [moistureFitnessOfDistance] using max_eq_left this

/-- C3 witness: instantiating the amended theorem at concrete inputs. -/
theorem claimC3_moisture_fitness_w :
    getMoistureFitness matchTree wEcoTree = 1 ∧
    moistureFitnessOfDistance (3/4) ≤ moistureFitnessOfDistance (1/4) ∧
    moistureFitnessOfDistance (2/3) = 0 := by
  refine ⟨(claimC3_moisture_fitness matchTree wEcoTree).2.2.2.1 ?_,
    (claimC3_moisture_fitness matchTree wEcoTree).2.2.2.2.1 (1/4) (3/4) (by norm_num),
    (claimC3_moisture_fitness matchTree wEcoTree).2.2.2.2.2 (2/3) (by norm_num)⟩
  norm_num [getMoisture, matchTree, wEcoTree, wTerrain, wTreeChars]

/-- C4 (counterexample): freshly sampled characteristics are not within the
declared bound tables — with a zero random draw, a tree's `SpreadDistance`
and a deer's or wolf's `Speed` land strictly below the declared minimum,
because the sampled value is multiplied by `ECOSYSTEM_SCALE = 1/2` after
being drawn inside the bounds. -/
theorem claimC4_counterexample :
    (randomTreeCharacteristics rzero 0).1.SpreadDistance < TREE_BOUNDS.SpreadDistance.min ∧
    (randomDeerCharacteristics rzero 0).1.Speed < DEER_BOUNDS.Speed.min ∧
    (randomWolfCharacteristics rzero 0).1.Speed < WOLF_BOUNDS.Speed.min := by
  refine ⟨?_, ?_, ?_⟩
  · norm_num [randomTreeCharacteristics, randomInRange, rzero, TREE_BOUNDS, ECOSYSTEM_SCALE]
  · norm_num [randomDeerCharacteristics, randomInRange, rzero, DEER_BOUNDS, ECOSYSTEM_SCALE]
  · norm_num [randomWolfCharacteristics, randomInRange, rzero, WOLF_BOUNDS, ECOSYSTEM_SCALE]

/-- C5 (evaluation of the failing input): a hungry deer exactly on top of its
target tree — the seek snippet (source lines 683-687; identically the wolf
chase, lines 825-829) divides the zero direction vector by the zero distance
and assigns `NaN` to both coordinates, while the guarded flee snippet
(source lines 711-722) falls back to a finite random direction at the same
distance. -/
theorem claimC5_nan_at_zero_distance :
    seekStepJs mzero (.num (1/2)) (.num (1/2)) (.num (1/2)) (.num (1/2)) (.num (3/2000)) =
      (.nan, .nan) ∧
    fleeStepJs mzero (.num (1/2)) (.num (1/2)) (.num (1/2)) (.num (1/2)) (.num (3/2000))
        (.num 1) (.num 0) = (.num (1/2 + 3/2000), .num (1/2)) := by
  constructor
  · norm_num [seekStepJs, jsSub, jsAdd, jsMul, jsDiv, jsSqrt, mzero]
  · norm_num [fleeStepJs, jsSub, jsAdd, jsMul, jsDiv, jsSqrt, jsLt, mzero]

/-- C6 (counterexample): at maximum crowding susceptibility the crowding
effect equals exactly 1, so at density 1 the growth factor is 0 — crowding
can cost everything; there is no ceiling strictly below total loss. -/
theorem claimC6_counterexample :
    crowdingEffect TREE_BOUNDS.CrowdingSusceptibility.max = 1 ∧
    growthAmount 1 1 TREE_BOUNDS.CrowdingSusceptibility.max = 0 := by
  constructor
  · norm_num [crowdingEffect, normalizedSusceptibility, TREE_BOUNDS,
      MIN_CROWDING_GROWTH_REDUCTION]
  · norm_num [growthAmount, crowdingEffect, normalizedSusceptibility, TREE_BOUNDS,
      MIN_CROWDING_GROWTH_REDUCTION]

/-- C6 (amended): for positive density the growth is
`1 · fitness · (1 − density · crowdingEffect)`, with `crowdingEffect`
derived from the bounds-normalized susceptibility.  The reduction factor
`density · crowdingEffect` is at least `MIN_CROWDING_GROWTH_REDUCTION ·
density` — strictly positive, so crowding always costs something — but its
ceiling is exactly total loss: it reaches 1 at maximum susceptibility and
density 1. -/
theorem claimC6_crowding_growth (fit crowd cs : ℚ)
    (h1 : TREE_BOUNDS.CrowdingSusceptibility.min ≤ cs)
    (h2 : cs ≤ TREE_BOUNDS.CrowdingSusceptibility.max)
    (h3 : 0 < crowd) (h4 : crowd ≤ 1) :
    growthAmount fit crowd cs = 1 * fit * (1 - crowd * crowdingEffect cs) ∧
    MIN_CROWDING_GROWTH_REDUCTION ≤ crowdingEffect cs ∧
    crowdingEffect cs ≤ 1 ∧
    MIN_CROWDING_GROWTH_REDUCTION * crowd ≤ crowd * crowdingEffect cs ∧
    0 < crowd * crowdingEffect cs ∧
    crowd * crowdingEffect cs ≤ 1 := by
  have hmin : TREE_BOUNDS.CrowdingSusceptibility.min = 1/2 := rfl
  have hmax : TREE_BOUNDS.CrowdingSusceptibility.max = 2 := rfl
  rw [hmin] at h1
  rw [hmax] at h2
  have heff : crowdingEffect cs = 1/4 + 3/4 * ((cs - 1/2) * (2/3)) := by
    simp only [crowdingEffect, normalizedSusceptibility, MIN_CROWDING_GROWTH_REDUCTION,
      hmin, hmax]
    ring
  have he1 : MIN_CROWDING_GROWTH_REDUCTION ≤ crowdingEffect cs := by
    rw [heff, show MIN_CROWDING_GROWTH_REDUCTION = 1/4 from rfl]
    linarith
  have he2 : crowdingEffect cs ≤ 1 := by
    rw [heff]
    linarith
  have he0 : (0 : ℚ) < crowdingEffect cs :=
    lt_of_lt_of_le (by norm_num [MIN_CROWDING_GROWTH_REDUCTION]) he1
  refine ⟨by simp [growthAmount, h3], he1, he2, ?_, mul_pos h3 he0, ?_⟩
  · have := mul_le_mul_of_nonneg_left he1 (le_of_lt h3)
    linarith [this]
  · nlinarith [he0, he2, h3, h4]

/-- C6 witness: the amended theorem at density 1/2 and susceptibility 1. -/
theorem claimC6_crowding_growth_w :
    growthAmount 1 (1/2) 1 = 1 * 1 * (1 - 1/2 * crowdingEffect 1) ∧
    0 < 1/2 * crowdingEffect 1 ∧ 1/2 * crowdingEffect 1 ≤ 1 := by
  have h := claimC6_crowding_growth 1 (1/2) 1 (by norm_num [TREE_BOUNDS])
    (by norm_num [TREE_BOUNDS]) (by norm_num) (by norm_num)
  exact ⟨h.1, h.2.2.2.2.1, h.2.2.2.2.2⟩

/-- C7: every neighbour's crowdedness contribution is nonnegative, and the
summed, clamped crowdedness always lies in `[0, 1]`, for every tree and
ecosystem (given the `Math.sqrt` specification). -/
theorem claimC7_crowdedness (M : MathFns) (hM : SqrtSpec M) (tree : Tree) (eco : Ecosystem) :
    (∀ t, 0 ≤ proximityContribution M tree t) ∧
    0 ≤ crowdedness M tree eco ∧ crowdedness M tree eco ≤ 1 := by
  have hcontrib : ∀ t, 0 ≤ proximityContribution M tree t := by
    intro t
    by_cases hid : t.id = tree.id
    · simp [proximityContribution, hid]
    · by_cases hsz : t.size ≤ tree.size
      · simp [proximityContribution, hid, hsz]
      · by_cases hlt : (t.x - tree.x) ^ 2 + (t.y - tree.y) ^ 2 <
            t.characteristics.SpreadDistance * t.characteristics.SpreadDistance
        · have hd2 : (0 : ℚ) ≤ (t.x - tree.x) ^ 2 + (t.y - tree.y) ^ 2 :=
            add_nonneg (sq_nonneg _) (sq_nonneg _)
          have hs0 : 0 ≤ M.sqrt ((t.x - tree.x) ^ 2 + (t.y - tree.y) ^ 2) := hM.1 _
          have hslt : M.sqrt ((t.x - tree.x) ^ 2 + (t.y - tree.y) ^ 2) <
              |t.characteristics.SpreadDistance| :=
            hM.2 _ t.characteristics.SpreadDistance hd2 hlt
          simp only [proximityContribution, hid, hsz, hlt, if_true, if_false,
            ite_true, ite_false]
          rcases lt_trichotomy t.characteristics.SpreadDistance 0 with hneg | hzero | hpos
          · refine div_nonneg_iff.mpr (Or.inr ⟨?_, le_of_lt hneg⟩)
            linarith
          · exfalso
            rw [hzero] at hlt
            simp at hlt
            exact absurd (lt_of_le_of_lt hd2 hlt) (lt_irrefl 0)
          · refine div_nonneg ?_ (le_of_lt hpos)
            rw [abs_of_pos hpos] at hslt
            linarith
        · simp [proximityContribution, hid, hsz, hlt]
  refine ⟨hcontrib, ?_, ?_⟩
  · have hsum : 0 ≤ (cellOffsets.flatMap fun dx => cellOffsets.flatMap fun dy =>
        (eco.grid ((cellKey tree).1 + dx, (cellKey tree).2 + dy)).map
          (proximityContribution M tree)).sum := by
      apply List.sum_nonneg
      intro x hx
      simp only [List.mem_flatMap, List.mem_map] at hx
      obtain ⟨dx, _, dy, _, t, _, rfl⟩ := hx
      exact hcontrib t
    exact le_min (by norm_num) hsum
  · exact min_le_left 1 _

/-- C7 witness. -/
theorem claimC7_crowdedness_w :
    0 ≤ proximityContribution mzero wTree wTree ∧
    0 ≤ crowdedness mzero wTree wEcoTree ∧ crowdedness mzero wTree wEcoTree ≤ 1 := by
  have h := claimC7_crowdedness mzero sqrtSpec_mzero wTree wEcoTree
  exact ⟨h.1 wTree, h.2.1, h.2.2⟩

-- ===== Grid invariant machinery =====

theorem cellKey_congr (t t' : Tree) (hx : t'.x = t.x) (hy : t'.y = t.y) :
    cellKey t' = cellKey t := by
  simp [cellKey, getCell, hx, hy]

theorem map_replaceId_of_not_mem (L : List Tree) (t' : Tree)
    (h : ∀ u ∈ L, u.id ≠ t'.id) :
    L.map (fun u => if u.id = t'.id then t' else u) = L := by
  induction L with
  | nil => rfl
  | cons a L ih =>
    simp only [List.map_cons, List.cons.injEq]
    exact ⟨by simp [h a (by simp)], ih fun u hu => h u (by simp [hu])⟩

theorem removeFirstById_append_not_mem (X : List Tree) (t : Tree) (Y : List Tree)
    (hX : ∀ u ∈ X, u.id ≠ t.id) :
    removeFirstById (X ++ t :: Y) t.id = X ++ Y := by
  induction X with
  | nil => simp [removeFirstById]
  | cons a X ih =>
    have ha : a.id ≠ t.id := hX a (by simp)
    have ih' := ih fun u hu => hX u (by simp [hu])
    simp only [List.cons_append, removeFirstById, ha, ite_false, if_false]
    show a :: removeFirstById (X ++ t :: Y) t.id = a :: (X ++ Y)
    rw [ih']

theorem idsNodup_middle_not_mem (A B : List Tree) (t : Tree)
    (h : treeIdsNodup (A ++ t :: B)) :
    (∀ u ∈ A, u.id ≠ t.id) ∧ (∀ u ∈ B, u.id ≠ t.id) := by
  unfold treeIdsNodup at h
  rw [List.map_append, List.map_cons, List.nodup_middle, List.nodup_cons] at h
  have hnotin := h.1
  constructor
  · intro u hu he
    exact hnotin (by rw [← he]; exact List.mem_append_left _ (List.mem_map_of_mem _ hu))
  · intro u hu he
    exact hnotin (by rw [← he]; exact List.mem_append_right _ (List.mem_map_of_mem _ hu))

theorem gridExact_replace (A B : List Tree) (t t' : Tree) (g : ℤ × ℤ → List Tree)
    (hg : gridExact (A ++ t :: B) g)
    (hnd : treeIdsNodup (A ++ t :: B))
    (hid : t'.id = t.id) (hx : t'.x = t.x) (hy : t'.y = t.y) :
    gridExact (A ++ t' :: B) (replaceInGridById g t') := by
  have hcell : cellKey t' = cellKey t := cellKey_congr t t' hx hy
  obtain ⟨hA, hB⟩ := idsNodup_middle_not_mem A B t hnd
  intro c
  unfold replaceInGridById
  by_cases hc : c = cellKey t'
  · subst hc
    have e1 : List.filter (fun u => decide (cellKey u = cellKey t')) (t :: B) =
        t :: List.filter (fun u => decide (cellKey u = cellKey t')) B :=
      List.filter_cons_of_pos (decide_eq_true hcell.symm)
    have e2 : List.filter (fun u => decide (cellKey u = cellKey t')) (t' :: B) =
        t' :: List.filter (fun u => decide (cellKey u = cellKey t')) B :=
      List.filter_cons_of_pos (decide_eq_true rfl)
    rw [if_pos rfl, hg, List.filter_append, List.filter_append, e1, e2]
    rw [List.map_append, List.map_cons]
    rw [map_replaceId_of_not_mem _ t' fun u hu => by
      rw [hid]; exact hA u (List.mem_of_mem_filter hu)]
    rw [map_replaceId_of_not_mem _ t' fun u hu => by
      rw [hid]; exact hB u (List.mem_of_mem_filter hu)]
    rw [if_pos hid.symm]
  · have e1 : List.filter (fun u => decide (cellKey u = c)) (t :: B) =
        List.filter (fun u => decide (cellKey u = c)) B :=
      List.filter_cons_of_neg (by
        simp only [decide_eq_true_eq]
        exact fun he => hc (hcell.trans he).symm)
    have e2 : List.filter (fun u => decide (cellKey u = c)) (t' :: B) =
        List.filter (fun u => decide (cellKey u = c)) B :=
      List.filter_cons_of_neg (by
        simp only [decide_eq_true_eq]
        exact fun he => hc he.symm)
    rw [if_neg hc, hg, List.filter_append, List.filter_append, e1, e2]

theorem gridExact_delete (A B : List Tree) (t : Tree) (g : ℤ × ℤ → List Tree)
    (hg : gridExact (A ++ t :: B) g) (hnd : treeIdsNodup (A ++ t :: B)) :
    gridExact (A ++ B) (deleteFromGrid g t) := by
  obtain ⟨hA, hB⟩ := idsNodup_middle_not_mem A B t hnd
  intro c
  unfold deleteFromGrid
  by_cases hc : c = cellKey t
  · subst hc
    have e1 : List.filter (fun u => decide (cellKey u = cellKey t)) (t :: B) =
        t :: List.filter (fun u => decide (cellKey u = cellKey t)) B :=
      List.filter_cons_of_pos (decide_eq_true rfl)
    rw [if_pos rfl, hg, List.filter_append, e1]
    rw [removeFirstById_append_not_mem _ t _ fun u hu => hA u (List.mem_of_mem_filter hu)]
    rw [List.filter_append]
  · have e1 : List.filter (fun u => decide (cellKey u = c)) (t :: B) =
        List.filter (fun u => decide (cellKey u = c)) B :=
      List.filter_cons_of_neg (by
        simp only [decide_eq_true_eq]
        exact fun he => hc he.symm)
    rw [if_neg hc, hg, List.filter_append, List.filter_append, e1]

theorem gridExact_insert (L : List Tree) (t : Tree) (g : ℤ × ℤ → List Tree)
    (hg : gridExact L g) : gridExact (L ++ [t]) (gridInsert g t) := by
  intro c
  unfold gridInsert
  by_cases hc : c = cellKey t
  · subst hc
    have e1 : List.filter (fun u => decide (cellKey u = cellKey t)) [t] = [t] :=
      List.filter_cons_of_pos (decide_eq_true rfl)
    rw [if_pos rfl, hg, List.filter_append, e1]
  · have e1 : List.filter (fun u => decide (cellKey u = c)) [t] = [] :=
      List.filter_cons_of_neg (by
        simp only [decide_eq_true_eq]
        exact fun he => hc he.symm)
    rw [if_neg hc, hg, List.filter_append, e1, List.append_nil]

theorem gridExact_insert_list (bs : List Tree) : ∀ (L : List Tree) (g : ℤ × ℤ → List Tree),
    gridExact L g → gridExact (L ++ bs) (bs.foldl gridInsert g) := by
  induction bs with
  | nil => intro L g h; simpa using h
  | cons b bs ih =>
    intro L g h
    have := ih (L ++ [b]) (gridInsert g b) (gridExact_insert L b g h)
    simpa using this

theorem gridExact_eraseIdx (L : List Tree) (g : ℤ × ℤ → List Tree) (j : ℕ)
    (hj : j < L.length) (hg : gridExact L g) (hnd : treeIdsNodup L) :
    gridExact (L.eraseIdx j) (deleteFromGrid g (L.getD j defaultTree)) := by
  have hdecomp : L = L.take j ++ L.getD j defaultTree :: L.drop (j + 1) := by
    rw [List.getD_eq_getElem L defaultTree hj]
    conv_lhs => rw [← List.take_append_drop j L]
    congr 1
    exact List.drop_eq_getElem_cons hj
  rw [List.eraseIdx_eq_take_drop_succ]
  exact gridExact_delete _ _ _ g (hdecomp ▸ hg) (hdecomp ▸ hnd)

-- ===== Tree step structural lemmas =====

theorem treeStepRest_tree (M : MathFns) (r : Rng) (terrain : ℕ → ℕ → ℚ) (t2 : Tree)
    (nextId k : ℕ) : (treeStepRest M r terrain t2 nextId k).tree = t2 := by
  unfold treeStepRest
  dsimp only
  repeat' split
  all_goals rfl

theorem treeStepRest_born (M : MathFns) (r : Rng) (terrain : ℕ → ℕ → ℚ) (t2 : Tree)
    (nextId k : ℕ) :
    ((treeStepRest M r terrain t2 nextId k).born = none ∧
      (treeStepRest M r terrain t2 nextId k).nextId = nextId) ∨
    (∃ nx ny, (treeStepRest M r terrain t2 nextId k).born =
        some { id := nextId, x := nx, y := ny, age := 0, size := 0,
               characteristics := t2.characteristics } ∧
      (treeStepRest M r terrain t2 nextId k).nextId = nextId + 1 ∧
      (treeStepRest M r terrain t2 nextId k).keep = true) := by
  unfold treeStepRest
  dsimp only
  repeat' split
  all_goals first
    | (left; exact ⟨rfl, rfl⟩)
    | (right; exact ⟨_, _, rfl, rfl, rfl⟩)

theorem treeStepCore_tree_fields (M : MathFns) (r : Rng) (pre : Option (ℕ → ℚ))
    (terrain : ℕ → ℕ → ℚ) (grid : ℤ × ℤ → List Tree) (t : Tree) (i nextId k : ℕ) :
    (treeStepCore M r pre terrain grid t i nextId k).tree.id = t.id ∧
    (treeStepCore M r pre terrain grid t i nextId k).tree.x = t.x ∧
    (treeStepCore M r pre terrain grid t i nextId k).tree.y = t.y ∧
    (treeStepCore M r pre terrain grid t i nextId k).tree.age = t.age + 1 ∧
    (treeStepCore M r pre terrain grid t i nextId k).tree.characteristics = t.characteristics := by
  unfold treeStepCore
  dsimp only
  repeat' split
  all_goals simp [treeStepRest_tree]

theorem treeStepCore_born (M : MathFns) (r : Rng) (pre : Option (ℕ → ℚ))
    (terrain : ℕ → ℕ → ℚ) (grid : ℤ × ℤ → List Tree) (t : Tree) (i nextId k : ℕ) :
    ((treeStepCore M r pre terrain grid t i nextId k).born = none ∧
      (treeStepCore M r pre terrain grid t i nextId k).nextId = nextId) ∨
    (∃ nx ny, (treeStepCore M r pre terrain grid t i nextId k).born =
        some { id := nextId, x := nx, y := ny, age := 0, size := 0,
               characteristics := t.characteristics } ∧
      (treeStepCore M r pre terrain grid t i nextId k).nextId = nextId + 1 ∧
      (treeStepCore M r pre terrain grid t i nextId k).keep = true) := by
  unfold treeStepCore
  dsimp only
  repeat' split
  all_goals first
    | (left; exact ⟨rfl, rfl⟩)
    | (rcases treeStepRest_born M r terrain _ nextId _ with ⟨h1, h2⟩ | ⟨nx, ny, h1, h2, h3⟩
       · left; exact ⟨h1, h2⟩
       · right; exact ⟨nx, ny, h1, h2, h3⟩)

theorem treeStepCore_keep_false_born (M : MathFns) (r : Rng) (pre : Option (ℕ → ℚ))
    (terrain : ℕ → ℕ → ℚ) (grid : ℤ × ℤ → List Tree) (t : Tree) (i nextId k : ℕ)
    (hk : (treeStepCore M r pre terrain grid t i nextId k).keep = false) :
    (treeStepCore M r pre terrain grid t i nextId k).born = none ∧
    (treeStepCore M r pre terrain grid t i nextId k).nextId = nextId := by
  rcases treeStepCore_born M r pre terrain grid t i nextId k with ⟨h1, h2⟩ | ⟨_, _, _, _, h3⟩
  · exact ⟨h1, h2⟩
  · rw [h3] at hk
    exact absurd hk (by simp)

-- ===== Id bookkeeping lemmas =====

theorem treeIdsNodup_sublist (X Y : List Tree) (hs : X.Sublist Y) (h : treeIdsNodup Y) :
    treeIdsNodup X :=
  List.Nodup.sublist (List.Sublist.map Tree.id hs) h

theorem treeIdsNodup_mid_replace (F R : List Tree) (t t' : Tree) (hid : t'.id = t.id)
    (h : treeIdsNodup (F ++ t :: R)) : treeIdsNodup (F ++ t' :: R) := by
  unfold treeIdsNodup at *
  simp only [List.map_append, List.map_cons] at *
  rw [hid]
  exact h

theorem treeIdsNodup_snoc (L : List Tree) (b : Tree) (h : treeIdsNodup L)
    (hfresh : ∀ u ∈ L, u.id ≠ b.id) : treeIdsNodup (L ++ [b]) := by
  unfold treeIdsNodup at *
  rw [List.map_append]
  rw [List.nodup_append]
  refine ⟨h, by simp, ?_⟩
  intro a ha hb
  simp only [List.map_cons, List.map_nil, List.mem_singleton] at hb
  obtain ⟨u, hu, rfl⟩ := List.mem_map.mp ha
  exact hfresh u hu hb

theorem treeIdsNodup_mid_drop (F R : List Tree) (t : Tree)
    (h : treeIdsNodup (F ++ t :: R)) : treeIdsNodup (F ++ R) :=
  treeIdsNodup_sublist _ _ (List.Sublist.append_left (List.sublist_cons_self t R) F) h

theorem idsBelow_of_subset (L X : List Tree) (n : ℕ) (h : idsBelow L n)
    (hs : ∀ u ∈ X, u ∈ L) : idsBelow X n :=
  fun t ht => h t (hs t ht)

theorem idsBelow_mono (L : List Tree) (n m : ℕ) (hnm : n ≤ m) (h : idsBelow L n) :
    idsBelow L m :=
  fun t ht => lt_of_lt_of_le (h t ht) hnm

theorem idsBelow_mid_replace (F R : List Tree) (t t' : Tree) (hid : t'.id = t.id) (n : ℕ)
    (h : idsBelow (F ++ t :: R) n) : idsBelow (F ++ t' :: R) n := by
  intro u hu
  simp only [List.mem_append, List.mem_cons] at hu
  rcases hu with h1 | h1 | h1
  · exact h u (by simp [h1])
  · rw [h1, hid]
    exact h t (by simp)
  · exact h u (by simp [h1])

theorem idsBelow_mid_drop (F R : List Tree) (t : Tree) (n : ℕ)
    (h : idsBelow (F ++ t :: R) n) : idsBelow (F ++ R) n := by
  intro u hu
  apply h u
  simp only [List.mem_append, List.mem_cons] at hu ⊢
  tauto

theorem idsBelow_snoc (L : List Tree) (b : Tree) (n : ℕ) (h : idsBelow L n)
    (hb : b.id < n) : idsBelow (L ++ [b]) n := by
  intro u hu
  rcases List.mem_append.mp hu with h1 | h1
  · exact h u h1
  · simp only [List.mem_singleton] at h1
    rw [h1]
    exact hb

-- ===== Tree pass invariant =====

/-- Master invariant of the tree filter loop: relative to the already-kept
frame `F`, the grid stays exactly synchronized with the live trees, ids stay
distinct, and all ids stay below the id counter. -/
theorem treePassAux_inv (M : MathFns) (r : Rng) (pre : Option (ℕ → ℚ))
    (terrain : ℕ → ℕ → ℚ) :
    ∀ (pending : List Tree) (i : ℕ) (grid : ℤ × ℤ → List Tree) (nextId k : ℕ)
      (born F : List Tree),
    gridExact (F ++ pending) grid →
    treeIdsNodup (F ++ pending ++ born) →
    idsBelow (F ++ pending ++ born) nextId →
    gridExact (F ++ (treePassAux M r pre terrain pending i grid nextId k born).kept)
        (treePassAux M r pre terrain pending i grid nextId k born).grid ∧
    treeIdsNodup (F ++ (treePassAux M r pre terrain pending i grid nextId k born).kept ++
        (treePassAux M r pre terrain pending i grid nextId k born).born) ∧
    idsBelow (F ++ (treePassAux M r pre terrain pending i grid nextId k born).kept ++
        (treePassAux M r pre terrain pending i grid nextId k born).born)
      (treePassAux M r pre terrain pending i grid nextId k born).nextId := by
  intro pending
  induction pending with
  | nil =>
    intro i grid nextId k born F hg hnd hbelow
    simp only [treePassAux]
    exact ⟨by simpa using hg, hnd, hbelow⟩
  | cons t rest ih =>
    intro i grid nextId k born F hg hnd hbelow
    simp only [treePassAux]
    obtain ⟨hfid, hfx, hfy, hfage, hfchars⟩ :=
      treeStepCore_tree_fields M r pre terrain grid t i nextId k
    set res := treeStepCore M r pre terrain grid t i nextId k with hres
    -- normalized forms of the combined invariants
    have hndN : treeIdsNodup (F ++ t :: (rest ++ born)) := by
      have heq : (F ++ t :: rest) ++ born = F ++ t :: (rest ++ born) := by
        simp [List.append_assoc]
      rw [heq] at hnd
      exact hnd
    have hbelowN : idsBelow (F ++ t :: (rest ++ born)) nextId := by
      have heq : (F ++ t :: rest) ++ born = F ++ t :: (rest ++ born) := by
        simp [List.append_assoc]
      rw [heq] at hbelow
      exact hbelow
    have hndR : treeIdsNodup (F ++ res.tree :: (rest ++ born)) :=
      treeIdsNodup_mid_replace F (rest ++ born) t res.tree hfid hndN
    have hbelowR : idsBelow (F ++ res.tree :: (rest ++ born)) nextId :=
      idsBelow_mid_replace F (rest ++ born) t res.tree hfid nextId hbelowN
    have hnd0 : treeIdsNodup (F ++ t :: rest) :=
      treeIdsNodup_sublist _ _ (List.sublist_append_left _ _) hnd
    have hnd0' : treeIdsNodup (F ++ res.tree :: rest) :=
      treeIdsNodup_mid_replace F rest t res.tree hfid hnd0
    have hg1 : gridExact (F ++ res.tree :: rest) (replaceInGridById grid res.tree) :=
      gridExact_replace F rest t res.tree grid hg hnd0 hfid hfx hfy
    by_cases hk : res.keep = true
    · -- the tree survives: it joins the frame
      rw [if_pos hk, if_pos hk]
      have hbornOk :
          treeIdsNodup ((F ++ [res.tree] ++ rest) ++ (born ++ res.born.toList)) ∧
          idsBelow ((F ++ [res.tree] ++ rest) ++ (born ++ res.born.toList)) res.nextId := by
        rcases treeStepCore_born M r pre terrain grid t i nextId k with hnone | hsome
        · rw [← hres] at hnone
          obtain ⟨hb, hnid⟩ := hnone
          rw [hb, hnid]
          have heq : (F ++ [res.tree] ++ rest) ++ (born ++ (none : Option Tree).toList) =
              F ++ res.tree :: (rest ++ born) := by
            simp [List.append_assoc]
          rw [heq]
          exact ⟨hndR, hbelowR⟩
        · rw [← hres] at hsome
          obtain ⟨nx, ny, hb, hnid, -⟩ := hsome
          rw [hb, hnid]
          have heq : (F ++ [res.tree] ++ rest) ++ (born ++ (some
              { id := nextId, x := nx, y := ny, age := 0, size := 0,
                characteristics := t.characteristics } : Option Tree).toList) =
              (F ++ res.tree :: (rest ++ born)) ++
                [{ id := nextId, x := nx, y := ny, age := 0, size := 0,
                   characteristics := t.characteristics }] := by
            simp [List.append_assoc]
          rw [heq]
          constructor
          · refine treeIdsNodup_snoc _ _ hndR ?_
            intro u hu
            exact Nat.ne_of_lt (hbelowR u hu)
          · refine idsBelow_snoc _ _ _ ?_ (Nat.lt_succ_self nextId)
            exact idsBelow_mono _ _ _ (Nat.le_succ nextId) hbelowR
      have hrec := ih (i + 1) (replaceInGridById grid res.tree) res.nextId res.k
        (born ++ res.born.toList) (F ++ [res.tree])
        (by
          have heq : (F ++ [res.tree]) ++ rest = F ++ res.tree :: rest := by
            simp [List.append_assoc]
          rw [heq]
          exact hg1)
        (by
          have heq : ((F ++ [res.tree]) ++ rest) ++ (born ++ res.born.toList) =
              (F ++ [res.tree] ++ rest) ++ (born ++ res.born.toList) := by
            simp [List.append_assoc]
          rw [heq]
          exact hbornOk.1)
        (by
          have heq : ((F ++ [res.tree]) ++ rest) ++ (born ++ res.born.toList) =
              (F ++ [res.tree] ++ rest) ++ (born ++ res.born.toList) := by
            simp [List.append_assoc]
          rw [heq]
          exact hbornOk.2)
      obtain ⟨hga, hnda, hba⟩ := hrec
      refine ⟨?_, ?_, ?_⟩
      · have heq : (F ++ [res.tree]) ++
            (treePassAux M r pre terrain rest (i + 1) (replaceInGridById grid res.tree)
              res.nextId res.k (born ++ res.born.toList)).kept =
            F ++ res.tree ::
              (treePassAux M r pre terrain rest (i + 1) (replaceInGridById grid res.tree)
                res.nextId res.k (born ++ res.born.toList)).kept := by
          simp [List.append_assoc]
        rw [heq] at hga
        exact hga
      · have heq : ((F ++ [res.tree]) ++
            (treePassAux M r pre terrain rest (i + 1) (replaceInGridById grid res.tree)
              res.nextId res.k (born ++ res.born.toList)).kept) ++
            (treePassAux M r pre terrain rest (i + 1) (replaceInGridById grid res.tree)
              res.nextId res.k (born ++ res.born.toList)).born =
            (F ++ res.tree ::
              (treePassAux M r pre terrain rest (i + 1) (replaceInGridById grid res.tree)
                res.nextId res.k (born ++ res.born.toList)).kept) ++
            (treePassAux M r pre terrain rest (i + 1) (replaceInGridById grid res.tree)
              res.nextId res.k (born ++ res.born.toList)).born := by
          simp [List.append_assoc]
        rw [heq] at hnda
        exact hnda
      · have heq : ((F ++ [res.tree]) ++
            (treePassAux M r pre terrain rest (i + 1) (replaceInGridById grid res.tree)
              res.nextId res.k (born ++ res.born.toList)).kept) ++
            (treePassAux M r pre terrain rest (i + 1) (replaceInGridById grid res.tree)
              res.nextId res.k (born ++ res.born.toList)).born =
            (F ++ res.tree ::
              (treePassAux M r pre terrain rest (i + 1) (replaceInGridById grid res.tree)
                res.nextId res.k (born ++ res.born.toList)).kept) ++
            (treePassAux M r pre terrain rest (i + 1) (replaceInGridById grid res.tree)
              res.nextId res.k (born ++ res.born.toList)).born := by
          simp [List.append_assoc]
        rw [heq] at hba
        exact hba
    · -- the tree dies: removed from the grid, frame unchanged
      rw [if_neg hk, if_neg hk]
      have hk' : res.keep = false := by
        cases h : res.keep
        · rfl
        · exact absurd h hk
      obtain ⟨hb, hnid⟩ := treeStepCore_keep_false_born M r pre terrain grid t i nextId k hk'
      rw [← hres] at hb hnid
      have hg2 : gridExact (F ++ rest)
          (deleteFromGrid (replaceInGridById grid res.tree) res.tree) :=
        gridExact_delete F rest res.tree _ hg1 hnd0'
      have hnd1 : treeIdsNodup ((F ++ rest) ++ born) := by
        have heq : (F ++ rest) ++ born = F ++ (rest ++ born) := by
          simp [List.append_assoc]
        rw [heq]
        exact treeIdsNodup_mid_drop F (rest ++ born) t hndN
      have hbelow1 : idsBelow ((F ++ rest) ++ born) nextId := by
        have heq : (F ++ rest) ++ born = F ++ (rest ++ born) := by
          simp [List.append_assoc]
        rw [heq]
        exact idsBelow_mid_drop F (rest ++ born) t nextId hbelowN
      have hrec := ih (i + 1) _ res.nextId res.k (born ++ res.born.toList) F
        hg2 (by rw [hb]; simpa using hnd1) (by rw [hb, hnid]; simpa using hbelow1)
      simpa using hrec

/-- The tree section of a tick preserves the grid invariant. -/
theorem treeUpdates_inv (M : MathFns) (r : Rng) (pre : Option (ℕ → ℚ)) (s : SimState)
    (k : ℕ) (h : gridInv s) : gridInv (treeUpdates M r pre s k).1 := by
  obtain ⟨hg, hnd, hbelow⟩ := h
  have haux := treePassAux_inv M r pre s.eco.terrain s.eco.trees 0 s.eco.grid s.nextTreeId k [] []
    (by simpa using hg) (by simpa using hnd) (by simpa using hbelow)
  obtain ⟨hga, hnda, hba⟩ := haux
  unfold treeUpdates gridInv
  dsimp only
  refine ⟨?_, by simpa using hnda, by simpa using hba⟩
  exact gridExact_insert_list _ _ _ (by simpa using hga)

-- ===== Deer pass: trees/grid bookkeeping =====

theorem eatScan_lt (M : MathFns) (d : Deer) (trees : List Tree) :
    ∀ n j, eatScan M d trees n = some j → j < n := by
  intro n
  induction n with
  | zero => intro j h; simp [eatScan] at h
  | succ n ihn =>
    intro j h
    unfold eatScan at h
    dsimp only at h
    split at h
    · simp only [Option.some.injEq] at h
      omega
    · exact Nat.lt_succ_of_lt (ihn j h)

theorem eatIndex_lt (M : MathFns) (d : Deer) (trees : List Tree) (j : ℕ)
    (h : eatIndex M d trees = some j) : j < trees.length :=
  eatScan_lt M d trees trees.length j h

theorem deerEat_treesGrid (M : MathFns) (trees : List Tree) (grid : ℤ × ℤ → List Tree)
    (d3 : Deer) :
    ((deerEat M trees grid d3).1 = trees ∧ (deerEat M trees grid d3).2.1 = grid) ∨
    (∃ j, j < trees.length ∧ (deerEat M trees grid d3).1 = trees.eraseIdx j ∧
      (deerEat M trees grid d3).2.1 = deleteFromGrid grid (trees.getD j defaultTree)) := by
  unfold deerEat
  split
  · cases heat : eatIndex M d3 trees with
    | none => left; simp [heat]
    | some j =>
      right
      exact ⟨j, eatIndex_lt M d3 trees j heat, by simp [heat], by simp [heat]⟩
  · left
    exact ⟨rfl, rfl⟩

theorem deerStepAt_treesGrid (M : MathFns) (r : Rng) (wolves : List Wolf) (immD : Bool)
    (st : DeerPassSt) (i : ℕ) :
    ∃ d3, (deerStepAt M r wolves immD st i).trees = (deerEat M st.trees st.grid d3).1 ∧
      (deerStepAt M r wolves immD st i).grid = (deerEat M st.trees st.grid d3).2.1 := by
  unfold deerStepAt
  dsimp only
  repeat' split
  all_goals exact ⟨_, rfl, rfl⟩

theorem deerStepAt_gridInvT (M : MathFns) (r : Rng) (wolves : List Wolf) (immD : Bool)
    (st : DeerPassSt) (i : ℕ) (n : ℕ)
    (hg : gridExact st.trees st.grid) (hnd : treeIdsNodup st.trees)
    (hb : idsBelow st.trees n) :
    gridExact (deerStepAt M r wolves immD st i).trees (deerStepAt M r wolves immD st i).grid ∧
    treeIdsNodup (deerStepAt M r wolves immD st i).trees ∧
    idsBelow (deerStepAt M r wolves immD st i).trees n := by
  obtain ⟨d3, ht, hgr⟩ := deerStepAt_treesGrid M r wolves immD st i
  rw [ht, hgr]
  rcases deerEat_treesGrid M st.trees st.grid d3 with ⟨h1, h2⟩ | ⟨j, hj, h1, h2⟩
  · rw [h1, h2]
    exact ⟨hg, hnd, hb⟩
  · rw [h1, h2]
    refine ⟨gridExact_eraseIdx _ _ j hj hg hnd, ?_, ?_⟩
    · exact treeIdsNodup_sublist _ _ (List.eraseIdx_sublist _ j) hnd
    · exact idsBelow_of_subset _ _ n hb fun u hu => (List.eraseIdx_sublist _ j).subset hu

theorem deerPassAux_gridInvT (M : MathFns) (r : Rng) (wolves : List Wolf) (immD : Bool) :
    ∀ (n i : ℕ) (st : DeerPassSt) (m : ℕ),
    gridExact st.trees st.grid → treeIdsNodup st.trees → idsBelow st.trees m →
    gridExact (deerPassAux M r wolves immD n i st).trees
        (deerPassAux M r wolves immD n i st).grid ∧
    treeIdsNodup (deerPassAux M r wolves immD n i st).trees ∧
    idsBelow (deerPassAux M r wolves immD n i st).trees m := by
  intro n
  induction n with
  | zero =>
    intro i st m h1 h2 h3
    exact ⟨h1, h2, h3⟩
  | succ n ihn =>
    intro i st m h1 h2 h3
    have hstep := deerStepAt_gridInvT M r wolves immD st i m h1 h2 h3
    exact ihn (i + 1) _ m hstep.1 hstep.2.1 hstep.2.2

/-- The deer section of a tick preserves the grid invariant (it only removes
eaten trees, from both the population and the index) and leaves the tree id
counter unchanged. -/
theorem deerUpdates_inv (M : MathFns) (r : Rng) (immD : Bool) (s : SimState) (k : ℕ)
    (h : gridInv s) : gridInv (deerUpdates M r immD s k).1 ∧
      (deerUpdates M r immD s k).1.nextTreeId = s.nextTreeId := by
  obtain ⟨hg, hnd, hbelow⟩ := h
  have haux := deerPassAux_gridInvT M r s.eco.wolves immD s.eco.deer.length 0
    { arr := s.eco.deer, keeps := [], trees := s.eco.trees, grid := s.eco.grid,
      born := [], nextId := s.nextDeerId, k := k } s.nextTreeId hg hnd hbelow
  exact ⟨⟨haux.1, haux.2.1, haux.2.2⟩, rfl⟩

/-- The wolf section of a tick does not touch the trees, the grid, or the
tree id counter. -/
theorem wolfUpdates_treesGrid (M : MathFns) (r : Rng) (immW : Bool) (s : SimState) (k : ℕ) :
    (wolfUpdates M r immW s k).1.eco.trees = s.eco.trees ∧
    (wolfUpdates M r immW s k).1.eco.grid = s.eco.grid ∧
    (wolfUpdates M r immW s k).1.nextTreeId = s.nextTreeId :=
  ⟨rfl, rfl, rfl⟩

/-- One full tick preserves the grid invariant. -/
theorem updateEcosystem_gridInv (M : MathFns) (r : Rng) (pre : Option (ℕ → ℚ))
    (iD iW : Bool) (s : SimState) (k : ℕ) (h : gridInv s) :
    gridInv (updateEcosystem M r pre iD iW s k).1 := by
  have h1 := treeUpdates_inv M r pre s k h
  have h2 := deerUpdates_inv M r iD (treeUpdates M r pre s k).1 (treeUpdates M r pre s k).2 h1
  obtain ⟨e1, e2, e3⟩ := wolfUpdates_treesGrid M r iW
    (deerUpdates M r iD (treeUpdates M r pre s k).1 (treeUpdates M r pre s k).2).1
    (deerUpdates M r iD (treeUpdates M r pre s k).1 (treeUpdates M r pre s k).2).2
  show gridInv (wolfUpdates M r iW _ _).1
  unfold gridInv at h2 ⊢
  rw [e1, e2, e3]
  exact h2.1

-- ===== Initialization invariant =====

theorem initTreesAux_inv (r : Rng) :
    ∀ (n nextId k : ℕ) (acc : List Tree) (grid : ℤ × ℤ → List Tree),
    gridExact acc grid → treeIdsNodup acc → idsBelow acc nextId →
    gridExact (initTreesAux r n nextId k acc grid).1 (initTreesAux r n nextId k acc grid).2.1 ∧
    treeIdsNodup (initTreesAux r n nextId k acc grid).1 ∧
    idsBelow (initTreesAux r n nextId k acc grid).1 (initTreesAux r n nextId k acc grid).2.2.1 := by
  intro n
  induction n with
  | zero =>
    intro nextId k acc grid hg hnd hb
    exact ⟨hg, hnd, hb⟩
  | succ n ihn =>
    intro nextId k acc grid hg hnd hb
    unfold initTreesAux
    rcases hre : randomTreeCharacteristics r (k + 2) with ⟨chars, k1⟩
    dsimp only
    apply ihn
    · exact gridExact_insert acc _ grid hg
    · exact treeIdsNodup_snoc acc _ hnd fun u hu => Nat.ne_of_lt (hb u hu)
    · exact idsBelow_snoc acc _ _ (idsBelow_mono acc _ _ (Nat.le_succ nextId) hb)
        (Nat.lt_succ_self nextId)

/-- The freshly initialized ecosystem satisfies the grid invariant. -/
theorem initializeEcosystem_gridInv (M : MathFns) (r : Rng) (k : ℕ) :
    gridInv (initializeEcosystem M r k).1 := by
  unfold initializeEcosystem
  have haux := initTreesAux_inv r DEFAULT_TREE_COUNT 0 k [] (fun _ => [])
    (fun _ => rfl) (by simp [treeIdsNodup]) (by intro t ht; simp at ht)
  rcases h1 : initTreesAux r DEFAULT_TREE_COUNT 0 k [] (fun _ => []) with ⟨trees, grid, nTid, k1⟩
  rw [h1] at haux
  dsimp only
  rcases h2 : initDeerAux r DEFAULT_DEER_COUNT 0 k1 [] with ⟨deerL, nDid, k2⟩
  dsimp only
  rcases h3 : initWolvesAux r DEFAULT_WOLF_COUNT 0 k2 [] with ⟨wolvesL, nWid, k3⟩
  dsimp only
  exact ⟨haux.1, haux.2.1, haux.2.2⟩

/-- From the strong invariant, the claim-facing indexing property. -/
theorem gridIndexesTrees_of (eco : Ecosystem) (hg : gridExact eco.trees eco.grid)
    (hnd : treeIdsNodup eco.trees) : gridIndexesTrees eco := by
  refine ⟨?_, ?_, ?_⟩
  · intro t ht c
    rw [hg c]
    constructor
    · intro hmem
      have := (List.mem_filter.mp hmem).2
      simp only [decide_eq_true_eq] at this
      exact this.symm
    · intro hc
      subst hc
      exact List.mem_filter.mpr ⟨ht, by simp⟩
  · intro t ht
    rw [hg (cellKey t)]
    have hnd' : eco.trees.Nodup := List.Nodup.of_map _ hnd
    rw [List.count_filter (by simp)]
    exact List.count_eq_one_of_mem hnd' ht
  · intro c t htc
    rw [hg c] at htc
    exact List.mem_of_mem_filter htc

/-- C1: after initialization and after every `updateEcosystem` call
(assuming the invariant held before the call, as established at
initialization), the spatial grid contains exactly the live trees: each tree
appears in exactly the bucket keyed by the floor of its scaled position,
exactly once, and no bucket holds a tree absent from the population. -/
theorem claimC1_grid_index :
    (∀ (M : MathFns) (r : Rng) (k : ℕ),
      gridInv (initializeEcosystem M r k).1 ∧
      gridIndexesTrees (initializeEcosystem M r k).1.eco) ∧
    (∀ (M : MathFns) (r : Rng) (pre : Option (ℕ → ℚ)) (iD iW : Bool)
        (s : SimState) (k : ℕ), gridInv s →
      gridInv (updateEcosystem M r pre iD iW s k).1 ∧
      gridIndexesTrees (updateEcosystem M r pre iD iW s k).1.eco) := by
  constructor
  · intro M r k
    have h := initializeEcosystem_gridInv M r k
    exact ⟨h, gridIndexesTrees_of _ h.1 h.2.1⟩
  · intro M r pre iD iW s k hs
    have h := updateEcosystem_gridInv M r pre iD iW s k hs
    exact ⟨h, gridIndexesTrees_of _ h.1 h.2.1⟩

/-- C1 witness: the update part applied to a concrete state. -/
theorem claimC1_grid_index_w :
    gridInv emptyState ∧
    gridInv (updateEcosystem mzero rzero none true true emptyState 0).1 ∧
    gridIndexesTrees (updateEcosystem mzero rzero none true true emptyState 0).1.eco := by
  have hinv : gridInv emptyState := by
    refine ⟨fun _ => rfl, by simp [treeIdsNodup, emptyState, emptyEco], ?_⟩
    intro t ht
    simp [emptyState, emptyEco] at ht
  have h := claimC1_grid_index.2 mzero rzero none true true emptyState 0 hinv
  exact ⟨hinv, h.1, h.2⟩

-- ===== Wolf hunt lemmas =====

theorem wolfHuntAux_last (M : MathFns) (r : Rng) (wx wy : ℚ) :
    ∀ (j : ℕ) (ds : List Deer) (e : ℚ) (k : ℕ), ds.length = 1 →
    wolfHuntAux M r wx wy j ds e k = (ds, e, k) := by
  intro j
  induction j with
  | zero =>
    intro ds e k h
    rfl
  | succ j ihj =>
    intro ds e k h
    unfold wolfHuntAux
    dsimp only
    split
    · rw [if_pos (by simp [h])]
    · exact ihj ds e k h

theorem wolfHuntAux_ge_one (M : MathFns) (r : Rng) (wx wy : ℚ) :
    ∀ (j : ℕ) (ds : List Deer) (e : ℚ) (k : ℕ), 1 ≤ ds.length →
    1 ≤ (wolfHuntAux M r wx wy j ds e k).1.length := by
  intro j
  induction j with
  | zero =>
    intro ds e k h
    exact h
  | succ j ihj =>
    intro ds e k h
    unfold wolfHuntAux
    dsimp only
    split
    · by_cases hlen : (ds.length == 1) = true
      · rw [if_pos hlen]
        exact h
      · rw [if_neg hlen]
        split
        · dsimp only
          have hne : ds.length ≠ 1 := by simpa using hlen
          rw [List.length_eraseIdx]
          split <;> omega
        · exact ihj ds e (k + 1) h
    · exact ihj ds e k h

theorem wolfHunt_last (M : MathFns) (r : Rng) (wx wy : ℚ) (ds : List Deer) (e : ℚ) (k : ℕ)
    (h : ds.length = 1) : wolfHunt M r wx wy ds e k = (ds, e, k) := by
  unfold wolfHunt
  split
  · exact wolfHuntAux_last M r wx wy ds.length ds e k h
  · rfl

theorem wolfHunt_ge_one (M : MathFns) (r : Rng) (wx wy : ℚ) (ds : List Deer) (e : ℚ) (k : ℕ)
    (h : 1 ≤ ds.length) : 1 ≤ (wolfHunt M r wx wy ds e k).1.length := by
  unfold wolfHunt
  split
  · exact wolfHuntAux_ge_one M r wx wy ds.length ds e k h
  · exact h

theorem wolfStepAt_deer (M : MathFns) (r : Rng) (immW : Bool) (st : WolfPassSt) (i : ℕ) :
    ∃ wx wy e k, (wolfStepAt M r immW st i).deer = (wolfHunt M r wx wy st.deer e k).1 := by
  unfold wolfStepAt
  dsimp only
  repeat' split
  all_goals exact ⟨_, _, _, _, rfl⟩

theorem wolfPassAux_deer_ge_one (M : MathFns) (r : Rng) (immW : Bool) :
    ∀ (n i : ℕ) (st : WolfPassSt), 1 ≤ st.deer.length →
    1 ≤ (wolfPassAux M r immW n i st).deer.length := by
  intro n
  induction n with
  | zero =>
    intro i st h
    exact h
  | succ n ihn =>
    intro i st h
    have hstep : 1 ≤ (wolfStepAt M r immW st i).deer.length := by
      obtain ⟨wx, wy, e, k, hd⟩ := wolfStepAt_deer M r immW st i
      rw [hd]
      exact wolfHunt_ge_one M r wx wy st.deer e k h
    exact ihn (i + 1) _ hstep

/-- C10: the wolf kill-resolution loop never removes the last remaining
deer, unconditionally.  When exactly one deer is alive, the whole hunt is a
no-op that consumes no random draw (the guard breaks before any kill roll);
any hunt leaves at least one deer whenever at least one was alive; and a
whole wolf pass — for either value of the immortality flags — leaves at
least one deer alive. -/
theorem claimC10_last_deer_guard :
    (∀ (M : MathFns) (r : Rng) (wx wy : ℚ) (ds : List Deer) (e : ℚ) (k : ℕ),
      ds.length = 1 → wolfHunt M r wx wy ds e k = (ds, e, k)) ∧
    (∀ (M : MathFns) (r : Rng) (wx wy : ℚ) (ds : List Deer) (e : ℚ) (k : ℕ),
      1 ≤ ds.length → 1 ≤ (wolfHunt M r wx wy ds e k).1.length) ∧
    (∀ (M : MathFns) (r : Rng) (immW : Bool) (s : SimState) (k : ℕ),
      1 ≤ s.eco.deer.length → 1 ≤ (wolfUpdates M r immW s k).1.eco.deer.length) := by
  refine ⟨wolfHunt_last, wolfHunt_ge_one, ?_⟩
  intro M r immW s k h
  unfold wolfUpdates
  dsimp only
  exact wolfPassAux_deer_ge_one M r immW s.eco.wolves.length 0 _ h

/-- C10 witness. -/
theorem claimC10_last_deer_guard_w :
    wolfHunt mzero rzero 0 0 [wDeer] 1 0 = ([wDeer], 1, 0) ∧
    1 ≤ (wolfHunt mzero rzero 0 0 [wDeer] 1 0).1.length ∧
    1 ≤ (wolfUpdates mzero rzero false wStateAnimals 0).1.eco.deer.length := by
  refine ⟨claimC10_last_deer_guard.1 mzero rzero 0 0 [wDeer] 1 0 rfl,
    claimC10_last_deer_guard.2.1 mzero rzero 0 0 [wDeer] 1 0 (by simp),
    claimC10_last_deer_guard.2.2 mzero rzero false wStateAnimals 0 (by simp [wStateAnimals, wEcoAnimals])⟩

-- ===== Deer/wolf step field lemmas =====

theorem deerMove_fields (M : MathFns) (r : Rng) (grid : ℤ × ℤ → List Tree)
    (wolves : List Wolf) (d1 : Deer) (k : ℕ) :
    (deerMove M r grid wolves d1 k).1.id = d1.id ∧
    (deerMove M r grid wolves d1 k).1.age = d1.age ∧
    (deerMove M r grid wolves d1 k).1.energy = d1.energy ∧
    (deerMove M r grid wolves d1 k).1.characteristics = d1.characteristics := by
  unfold deerMove
  dsimp only
  repeat' split
  all_goals simp

theorem deerEat_deer_fields (M : MathFns) (trees : List Tree) (grid : ℤ × ℤ → List Tree)
    (d3 : Deer) :
    (deerEat M trees grid d3).2.2.id = d3.id ∧
    (deerEat M trees grid d3).2.2.age = d3.age ∧
    (deerEat M trees grid d3).2.2.characteristics = d3.characteristics := by
  unfold deerEat
  dsimp only
  repeat' split
  all_goals simp

theorem wolfMove_fields (M : MathFns) (r : Rng) (deerList : List Deer) (w1 : Wolf) (k : ℕ) :
    (wolfMove M r deerList w1 k).1.id = w1.id ∧
    (wolfMove M r deerList w1 k).1.age = w1.age ∧
    (wolfMove M r deerList w1 k).1.energy = w1.energy ∧
    (wolfMove M r deerList w1 k).1.characteristics = w1.characteristics := by
  unfold wolfMove
  dsimp only
  repeat' split
  all_goals simp

/-- With the immortality flag set and exactly one deer alive, the filter
callback's verdict is `keep` regardless of every random draw, and the deer
array keeps its sole (updated) inhabitant. -/
theorem deerStepAt_last_immortal (M : MathFns) (r : Rng) (wolves : List Wolf)
    (st : DeerPassSt) (i : ℕ) (h : st.arr.length = 1) :
    (deerStepAt M r wolves true st i).keeps = st.keeps ++ [true] ∧
    ∃ d', (deerStepAt M r wolves true st i).arr = st.arr.set i d' ∧
      d'.id = (st.arr.getD i defaultDeer).id := by
  have hmv := deerMove_fields M r st.grid wolves
    { st.arr.getD i defaultDeer with age := (st.arr.getD i defaultDeer).age + 1 } st.k
  unfold deerStepAt
  dsimp only
  simp only [List.length_set, h, beq_self_eq_true, Bool.and_self, Bool.true_and,
    if_true, ite_true, Bool.false_eq_true, if_false, ite_false]
  constructor
  · trivial
  · repeat' split
    all_goals
      refine ⟨_, List.set_set _ _ _ _, ?_⟩
    all_goals
      simp only []
      rw [(deerEat_deer_fields M st.trees st.grid _).1]
      simp only []
      rw [hmv.1]

-- keeps the sole wolf alive
theorem wolfStepAt_last_immortal (M : MathFns) (r : Rng)
    (st : WolfPassSt) (i : ℕ) (h : st.arr.length = 1) :
    (wolfStepAt M r true st i).keeps = st.keeps ++ [true] ∧
    ∃ w', (wolfStepAt M r true st i).arr = st.arr.set i w' ∧
      w'.id = (st.arr.getD i defaultWolf).id := by
  have hmv := wolfMove_fields M r st.deer
    { st.arr.getD i defaultWolf with age := (st.arr.getD i defaultWolf).age + 1 } st.k
  unfold wolfStepAt
  dsimp only
  simp only [List.length_set, h, beq_self_eq_true, Bool.and_self, Bool.true_and,
    if_true, ite_true, Bool.false_eq_true, if_false, ite_false]
  constructor
  · trivial
  · repeat' split
    all_goals
      refine ⟨_, List.set_set _ _ _ _, ?_⟩
    all_goals
      simp only []
      rw [hmv.1]

/-- C2: with the immortality flag enabled, a species pass whose population
is exactly one when its death-resolution step runs never removes that
individual, regardless of every random draw: the sole deer (respectively
wolf) survives its pass, with its identity preserved at the head of the
resulting population. -/
theorem claimC2_extinction_floor :
    (∀ (M : MathFns) (r : Rng) (s : SimState) (k : ℕ), s.eco.deer.length = 1 →
      ∃ d', ((deerUpdates M r true s k).1.eco.deer).head? = some d' ∧
        d'.id = (s.eco.deer.getD 0 defaultDeer).id ∧
        1 ≤ ((deerUpdates M r true s k).1.eco.deer).length) ∧
    (∀ (M : MathFns) (r : Rng) (s : SimState) (k : ℕ), s.eco.wolves.length = 1 →
      ∃ w', ((wolfUpdates M r true s k).1.eco.wolves).head? = some w' ∧
        w'.id = (s.eco.wolves.getD 0 defaultWolf).id ∧
        1 ≤ ((wolfUpdates M r true s k).1.eco.wolves).length) := by
  constructor
  · intro M r s k h
    obtain ⟨a, ha⟩ := List.length_eq_one.mp h
    unfold deerUpdates
    dsimp only
    have hlen : ({ arr := s.eco.deer, keeps := [], trees := s.eco.trees, grid := s.eco.grid, born := [], nextId := s.nextDeerId, k := k } : DeerPassSt).arr.length = 1 := h
    obtain ⟨hkeeps, d', harr, hid⟩ := deerStepAt_last_immortal M r s.eco.wolves _ 0 hlen
    rw [h]
    simp only [deerPassAux]
    rw [hkeeps, harr]
    dsimp only at hid ⊢
    rw [ha]
    refine ⟨d', ?_, by rw [hid, ha], ?_⟩
    · simp [applyKeeps]
    · simp [applyKeeps]
  · intro M r s k h
    obtain ⟨a, ha⟩ := List.length_eq_one.mp h
    unfold wolfUpdates
    dsimp only
    have hlen : ({ arr := s.eco.wolves, keeps := [], deer := s.eco.deer, born := [], nextId := s.nextWolfId, k := k } : WolfPassSt).arr.length = 1 := h
    obtain ⟨hkeeps, w', harr, hid⟩ := wolfStepAt_last_immortal M r _ 0 hlen
    rw [h]
    simp only [wolfPassAux]
    rw [hkeeps, harr]
    dsimp only at hid ⊢
    rw [ha]
    refine ⟨w', ?_, by rw [hid, ha], ?_⟩
    · simp [applyKeeps]
    · simp [applyKeeps]

/-- C2 witness: a state with exactly one deer and one wolf. -/
theorem claimC2_extinction_floor_w :
    (∃ d', ((deerUpdates mzero rzero true wStateAnimals 0).1.eco.deer).head? = some d' ∧
      d'.id = (wStateAnimals.eco.deer.getD 0 defaultDeer).id ∧
      1 ≤ ((deerUpdates mzero rzero true wStateAnimals 0).1.eco.deer).length) ∧
    (∃ w', ((wolfUpdates mzero rzero true wStateAnimals 0).1.eco.wolves).head? = some w' ∧
      w'.id = (wStateAnimals.eco.wolves.getD 0 defaultWolf).id ∧
      1 ≤ ((wolfUpdates mzero rzero true wStateAnimals 0).1.eco.wolves).length) :=
  ⟨claimC2_extinction_floor.1 mzero rzero wStateAnimals 0 rfl,
   claimC2_extinction_floor.2 mzero rzero wStateAnimals 0 rfl⟩

-- ===== C9 boundary lemmas =====

theorem treeStepRest_no_spread (M : MathFns) (r : Rng) (terrain : ℕ → ℕ → ℚ) (t2 : Tree)
    (nextId k : ℕ) (h : ¬ t2.characteristics.AgeToSpread < t2.age) :
    (treeStepRest M r terrain t2 nextId k).born = none ∧
    (treeStepRest M r terrain t2 nextId k).nextId = nextId := by
  unfold treeStepRest
  dsimp only
  repeat' split
  all_goals first
    | exact ⟨rfl, rfl⟩
    | exact absurd ‹t2.characteristics.AgeToSpread < t2.age› h

theorem treeStepCore_no_spread (M : MathFns) (r : Rng) (pre : Option (ℕ → ℚ))
    (terrain : ℕ → ℕ → ℚ) (grid : ℤ × ℤ → List Tree) (t : Tree) (i nextId k : ℕ)
    (h : t.age + 1 = t.characteristics.AgeToSpread) :
    (treeStepCore M r pre terrain grid t i nextId k).born = none ∧
    (treeStepCore M r pre terrain grid t i nextId k).nextId = nextId := by
  unfold treeStepCore
  dsimp only
  repeat' split
  all_goals first
    | exact ⟨rfl, rfl⟩
    | exact treeStepRest_no_spread M r terrain _ nextId _ (by
        dsimp only
        rw [← h]
        exact lt_irrefl _)

theorem treeStepCore_mature (M : MathFns) (r : Rng) (pre : Option (ℕ → ℚ))
    (terrain : ℕ → ℕ → ℚ) (grid : ℤ × ℤ → List Tree) (t : Tree) (i nextId k : ℕ)
    (h : t.size = t.characteristics.MaxSize) :
    treeStepCore M r pre terrain grid t i nextId k = matureTreeStep M r terrain t nextId k := by
  unfold treeStepCore matureTreeStep
  dsimp only
  rw [if_neg (by simp [h])]

/-- C9: two boundary behaviours of the per-tree filter callback.  (1) A
producer whose age, as observed at the reproduction check after this tick's
increment, equals exactly `AgeToSpread`, does not attempt reproduction: no
offspring is produced and the id counter does not advance, for every random
stream.  (2) A producer whose size equals `MaxSize` performs no growth-path
computation: its step equals `matureTreeStep` (age increment, natural death
and reproduction only), is therefore independent of the density inputs
(precalculated values and grid contents), and leaves the size unchanged. -/
theorem claimC9_boundaries :
    (∀ (M : MathFns) (r : Rng) (pre : Option (ℕ → ℚ)) (terrain : ℕ → ℕ → ℚ)
        (grid : ℤ × ℤ → List Tree) (t : Tree) (i nextId k : ℕ),
      t.age + 1 = t.characteristics.AgeToSpread →
      (treeStepCore M r pre terrain grid t i nextId k).born = none ∧
      (treeStepCore M r pre terrain grid t i nextId k).nextId = nextId) ∧
    (∀ (M : MathFns) (r : Rng) (pre pre' : Option (ℕ → ℚ)) (terrain : ℕ → ℕ → ℚ)
        (grid grid' : ℤ × ℤ → List Tree) (t : Tree) (i i' nextId k : ℕ),
      t.size = t.characteristics.MaxSize →
      treeStepCore M r pre terrain grid t i nextId k = matureTreeStep M r terrain t nextId k ∧
      treeStepCore M r pre' terrain grid' t i' nextId k =
        treeStepCore M r pre terrain grid t i nextId k ∧
      (treeStepCore M r pre terrain grid t i nextId k).tree.size = t.size) := by
  constructor
  · intro M r pre terrain grid t i nextId k h
    exact treeStepCore_no_spread M r pre terrain grid t i nextId k h
  · intro M r pre pre' terrain grid grid' t i i' nextId k h
    have h1 := treeStepCore_mature M r pre terrain grid t i nextId k h
    have h2 := treeStepCore_mature M r pre' terrain grid' t i' nextId k h
    refine ⟨h1, h2.trans h1.symm, ?_⟩
    rw [h1]
    unfold matureTreeStep
    rw [treeStepRest_tree]

/-- C9 witness: a fully grown tree at the reproduction-age boundary. -/
theorem claimC9_boundaries_w :
    (treeStepCore mzero rzero none wTerrain (fun _ => []) wTreeMature 0 5 0).born = none ∧
    treeStepCore mzero rzero none wTerrain (fun _ => []) wTreeMature 0 5 0 =
      matureTreeStep mzero rzero wTerrain wTreeMature 5 0 := by
  constructor
  · exact (claimC9_boundaries.1 mzero rzero none wTerrain (fun _ => []) wTreeMature 0 5 0
      (by norm_num [wTreeMature, wTreeChars])).1
  · exact (claimC9_boundaries.2 mzero rzero none none wTerrain (fun _ => []) (fun _ => [])
      wTreeMature 0 0 5 0 (by norm_num [wTreeMature, wTreeChars])).1

-- ===== Provenance lemmas =====

/-- Every tree left by the filter loop is either the aged update of a pending
tree (same id, position and characteristics, age incremented) or a newborn
(age 0, size 0, characteristics cloned from a pending parent); newborn
accumulator entries are carried through. -/
theorem treePassAux_provenance (M : MathFns) (r : Rng) (pre : Option (ℕ → ℚ))
    (terrain : ℕ → ℕ → ℚ) :
    ∀ (pending : List Tree) (i : ℕ) (grid : ℤ × ℤ → List Tree) (nextId k : ℕ)
      (born : List Tree),
    (∀ u ∈ (treePassAux M r pre terrain pending i grid nextId k born).kept,
      ∃ t0 ∈ pending, u.id = t0.id ∧ u.age = t0.age + 1 ∧ u.x = t0.x ∧ u.y = t0.y ∧
        u.characteristics = t0.characteristics) ∧
    (∀ b ∈ (treePassAux M r pre terrain pending i grid nextId k born).born,
      b ∈ born ∨ (b.age = 0 ∧ b.size = 0 ∧
        ∃ t0 ∈ pending, b.characteristics = t0.characteristics)) := by
  intro pending
  induction pending with
  | nil =>
    intro i grid nextId k born
    simp only [treePassAux]
    constructor
    · intro u hu
      simp at hu
    · intro b hb
      exact Or.inl hb
  | cons t rest ih =>
    intro i grid nextId k born
    simp only [treePassAux]
    obtain ⟨hfid, hfx, hfy, hfage, hfchars⟩ :=
      treeStepCore_tree_fields M r pre terrain grid t i nextId k
    set res := treeStepCore M r pre terrain grid t i nextId k with hres
    obtain ⟨ihk, ihb⟩ := ih (i + 1)
      (if res.keep then replaceInGridById grid res.tree
        else deleteFromGrid (replaceInGridById grid res.tree) res.tree)
      res.nextId res.k (born ++ res.born.toList)
    constructor
    · intro u hu
      simp only [List.mem_append] at hu
      rcases hu with hu | hu
      · have : u = res.tree := by
          by_cases hk : res.keep = true
          · rw [if_pos hk] at hu
            simpa using hu
          · rw [if_neg hk] at hu
            simp at hu
        subst this
        exact ⟨t, by simp, hfid, by rw [hfage], hfx, hfy, hfchars⟩
      · obtain ⟨t0, ht0, hrest⟩ := ihk u (by
          by_cases hk : res.keep = true
          · simpa [hk] using hu
          · simpa [hk] using hu)
        exact ⟨t0, by simp [ht0], hrest⟩
    · intro b hb
      rcases ihb b (by
          by_cases hk : res.keep = true
          · simpa [hk] using hb
          · simpa [hk] using hb) with hmem | hnew
      · rcases List.mem_append.mp hmem with hmem | hmem
        · exact Or.inl hmem
        · rcases treeStepCore_born M r pre terrain grid t i nextId k with ⟨hb0, -⟩ | ⟨nx, ny, hb0, -, -⟩
          · rw [← hres] at hb0
            rw [hb0] at hmem
            simp at hmem
          · rw [← hres] at hb0
            rw [hb0] at hmem
            simp only [Option.toList_some, List.mem_singleton] at hmem
            subst hmem
            exact Or.inr ⟨rfl, rfl, t, by simp, rfl⟩
      · obtain ⟨ha, hs, t0, ht0, hc⟩ := hnew
        exact Or.inr ⟨ha, hs, t0, by simp [ht0], hc⟩

/-- The tree section's provenance: every tree seen by the subsequent deer
pass is this tick's aged survivor of an input tree or this tick's newborn
clone. -/
theorem treeUpdates_provenance (M : MathFns) (r : Rng) (pre : Option (ℕ → ℚ))
    (s : SimState) (k : ℕ) :
    ∀ t ∈ (treeUpdates M r pre s k).1.eco.trees,
      (∃ t0 ∈ s.eco.trees, t.id = t0.id ∧ t.age = t0.age + 1 ∧ t.x = t0.x ∧ t.y = t0.y ∧
        t.characteristics = t0.characteristics) ∨
      (t.age = 0 ∧ t.size = 0 ∧ ∃ t0 ∈ s.eco.trees, t.characteristics = t0.characteristics) := by
  intro t ht
  unfold treeUpdates at ht
  dsimp only at ht
  obtain ⟨hk, hb⟩ := treePassAux_provenance M r pre s.eco.terrain s.eco.trees 0 s.eco.grid
    s.nextTreeId k []
  rcases List.mem_append.mp ht with h | h
  · exact Or.inl (hk t h)
  · rcases hb t h with h' | h'
    · simp at h'
    · exact Or.inr h'

/-- The deer filter callback updates exactly one array slot, preserving that
deer's identity and characteristics and incrementing its age. -/
theorem deerStepAt_arr_set (M : MathFns) (r : Rng) (wolves : List Wolf) (immD : Bool)
    (st : DeerPassSt) (i : ℕ) :
    ∃ d', (deerStepAt M r wolves immD st i).arr = st.arr.set i d' ∧
      d'.id = (st.arr.getD i defaultDeer).id ∧
      d'.age = (st.arr.getD i defaultDeer).age + 1 ∧
      d'.characteristics = (st.arr.getD i defaultDeer).characteristics := by
  have hmv := deerMove_fields M r st.grid wolves
    { st.arr.getD i defaultDeer with age := (st.arr.getD i defaultDeer).age + 1 } st.k
  unfold deerStepAt
  dsimp only
  repeat' split
  all_goals first
    | refine ⟨_, List.set_set _ _ _ _, ?_, ?_, ?_⟩
    | refine ⟨_, rfl, ?_, ?_, ?_⟩
  all_goals first
    | (dsimp only
       rw [(deerEat_deer_fields M st.trees st.grid _).1]
       dsimp only
       rw [hmv.1])
    | (dsimp only
       rw [(deerEat_deer_fields M st.trees st.grid _).2.1]
       dsimp only
       rw [hmv.2.1])
    | (dsimp only
       rw [(deerEat_deer_fields M st.trees st.grid _).2.2]
       dsimp only
       rw [hmv.2.2.2])

/-- The deer filter callback appends at most one newborn, a clone (age 0) of
the processed deer's characteristics. -/
theorem deerStepAt_born (M : MathFns) (r : Rng) (wolves : List Wolf) (immD : Bool)
    (st : DeerPassSt) (i : ℕ) :
    (deerStepAt M r wolves immD st i).born = st.born ∨
    ∃ b, (deerStepAt M r wolves immD st i).born = st.born ++ [b] ∧ b.age = 0 ∧
      b.characteristics = (st.arr.getD i defaultDeer).characteristics := by
  have hmv := deerMove_fields M r st.grid wolves
    { st.arr.getD i defaultDeer with age := (st.arr.getD i defaultDeer).age + 1 } st.k
  unfold deerStepAt
  dsimp only
  repeat' split
  all_goals first
    | exact Or.inl rfl
    | (refine Or.inr ⟨_, rfl, rfl, ?_⟩
       dsimp only
       rw [(deerEat_deer_fields M st.trees st.grid _).2.2]
       dsimp only
       rw [hmv.2.2.2])

/-- The wolf filter callback updates exactly one array slot, preserving that
wolf's identity and characteristics and incrementing its age. -/
theorem wolfStepAt_arr_set (M : MathFns) (r : Rng) (immW : Bool)
    (st : WolfPassSt) (i : ℕ) :
    ∃ w', (wolfStepAt M r immW st i).arr = st.arr.set i w' ∧
      w'.id = (st.arr.getD i defaultWolf).id ∧
      w'.age = (st.arr.getD i defaultWolf).age + 1 ∧
      w'.characteristics = (st.arr.getD i defaultWolf).characteristics := by
  have hmv := wolfMove_fields M r st.deer
    { st.arr.getD i defaultWolf with age := (st.arr.getD i defaultWolf).age + 1 } st.k
  unfold wolfStepAt
  dsimp only
  repeat' split
  all_goals first
    | refine ⟨_, List.set_set _ _ _ _, ?_, ?_, ?_⟩
    | refine ⟨_, rfl, ?_, ?_, ?_⟩
  all_goals first
    | (dsimp only
       rw [hmv.1])
    | (dsimp only
       rw [hmv.2.1])
    | (dsimp only
       rw [hmv.2.2.2])

/-- The wolf filter callback appends at most one newborn wolf, a clone
(age 0) of the processed wolf's characteristics. -/
theorem wolfStepAt_born (M : MathFns) (r : Rng) (immW : Bool)
    (st : WolfPassSt) (i : ℕ) :
    (wolfStepAt M r immW st i).born = st.born ∨
    ∃ b, (wolfStepAt M r immW st i).born = st.born ++ [b] ∧ b.age = 0 ∧
      b.characteristics = (st.arr.getD i defaultWolf).characteristics := by
  have hmv := wolfMove_fields M r st.deer
    { st.arr.getD i defaultWolf with age := (st.arr.getD i defaultWolf).age + 1 } st.k
  unfold wolfStepAt
  dsimp only
  repeat' split
  all_goals first
    | exact Or.inl rfl
    | (refine Or.inr ⟨_, rfl, rfl, ?_⟩
       dsimp only
       rw [hmv.2.2.2])

/-- The wolf hunt only removes deer. -/
theorem wolfHuntAux_subset (M : MathFns) (r : Rng) (wx wy : ℚ) :
    ∀ (j : ℕ) (ds : List Deer) (e : ℚ) (k : ℕ),
    (wolfHuntAux M r wx wy j ds e k).1 ⊆ ds := by
  intro j
  induction j with
  | zero =>
    intro ds e k
    exact fun a ha => ha
  | succ j ihj =>
    intro ds e k
    unfold wolfHuntAux
    dsimp only
    split
    · split
      · exact fun a ha => ha
      · split
        · exact (List.eraseIdx_sublist ds j).subset
        · exact ihj ds e (k + 1)
    · exact ihj ds e k

theorem wolfHunt_subset (M : MathFns) (r : Rng) (wx wy : ℚ) (ds : List Deer) (e : ℚ)
    (k : ℕ) : (wolfHunt M r wx wy ds e k).1 ⊆ ds := by
  unfold wolfHunt
  split
  · exact wolfHuntAux_subset M r wx wy ds.length ds e k
  · exact fun a ha => ha

theorem wolfStepAt_deer_subset (M : MathFns) (r : Rng) (immW : Bool) (st : WolfPassSt)
    (i : ℕ) : (wolfStepAt M r immW st i).deer ⊆ st.deer := by
  obtain ⟨wx, wy, e, k, hd⟩ := wolfStepAt_deer M r immW st i
  rw [hd]
  exact wolfHunt_subset M r wx wy st.deer e k

theorem applyKeeps_subset {α : Type} (arr : List α) (keeps : List Bool) :
    applyKeeps arr keeps ⊆ arr := by
  intro a ha
  unfold applyKeeps at ha
  simp only [List.mem_map, List.mem_filter] at ha
  obtain ⟨⟨x, b⟩, ⟨hz, _⟩, rfl⟩ := ha
  exact (List.of_mem_zip hz).1

/-- Provenance through the deer filter loop: every array inhabitant keeps
the identity and characteristics of some input deer, and every newborn has
age 0 and characteristics cloned from some input deer. -/
theorem deerPassAux_provenance (M : MathFns) (r : Rng) (wolves : List Wolf) (immD : Bool)
    (orig : List Deer) :
    ∀ (n i : ℕ) (st : DeerPassSt), n + i ≤ st.arr.length →
    (∀ d ∈ st.arr, ∃ d0 ∈ orig, d.id = d0.id ∧ d.characteristics = d0.characteristics) →
    (∀ b ∈ st.born, b.age = 0 ∧ ∃ d0 ∈ orig, b.characteristics = d0.characteristics) →
    (∀ d ∈ (deerPassAux M r wolves immD n i st).arr,
      ∃ d0 ∈ orig, d.id = d0.id ∧ d.characteristics = d0.characteristics) ∧
    (∀ b ∈ (deerPassAux M r wolves immD n i st).born,
      b.age = 0 ∧ ∃ d0 ∈ orig, b.characteristics = d0.characteristics) := by
  intro n
  induction n with
  | zero =>
    intro i st _ harr hborn
    exact ⟨harr, hborn⟩
  | succ n ihn =>
    intro i st hlen harr hborn
    have hi : i < st.arr.length := by omega
    have hmem : st.arr.getD i defaultDeer ∈ st.arr := by
      rw [List.getD_eq_getElem st.arr defaultDeer hi]
      exact List.getElem_mem hi
    obtain ⟨d', harr', hid, hage, hchars⟩ := deerStepAt_arr_set M r wolves immD st i
    have hP : ∃ d0 ∈ orig, d'.id = d0.id ∧ d'.characteristics = d0.characteristics := by
      obtain ⟨d0, hd0, h1, h2⟩ := harr _ hmem
      exact ⟨d0, hd0, by rw [hid, h1], by rw [hchars, h2]⟩
    apply ihn (i + 1)
    · rw [harr', List.length_set]
      omega
    · intro d hd
      rw [harr'] at hd
      rcases List.mem_or_eq_of_mem_set hd with h | h
      · exact harr d h
      · rw [h]
        exact hP
    · intro b hb
      rcases deerStepAt_born M r wolves immD st i with h | ⟨b', hb', hage', hchars'⟩
      · rw [h] at hb
        exact hborn b hb
      · rw [hb'] at hb
        rcases List.mem_append.mp hb with h | h
        · exact hborn b h
        · simp only [List.mem_singleton] at h
          subst h
          obtain ⟨d0, hd0, -, h2⟩ := harr _ hmem
          exact ⟨hage', d0, hd0, by rw [hchars', h2]⟩

theorem deerUpdates_provenance (M : MathFns) (r : Rng) (immD : Bool) (s : SimState) (k : ℕ) :
    ∀ d ∈ (deerUpdates M r immD s k).1.eco.deer,
      (∃ d0 ∈ s.eco.deer, d.id = d0.id ∧ d.characteristics = d0.characteristics) ∨
      (d.age = 0 ∧ ∃ d0 ∈ s.eco.deer, d.characteristics = d0.characteristics) := by
  intro d hd
  unfold deerUpdates at hd
  dsimp only at hd
  have haux := deerPassAux_provenance M r s.eco.wolves immD s.eco.deer s.eco.deer.length 0
    { arr := s.eco.deer, keeps := [], trees := s.eco.trees, grid := s.eco.grid, born := [], nextId := s.nextDeerId, k := k }
    (by simp) (fun d hd => ⟨d, hd, rfl, rfl⟩) (by intro b hb; simp at hb)
  rcases List.mem_append.mp hd with h | h
  · exact Or.inl (haux.1 d (applyKeeps_subset _ _ h))
  · exact Or.inr (haux.2 d h)

/-- The deer pass only removes trees (eaten ones). -/
theorem deerStepAt_trees_subset (M : MathFns) (r : Rng) (wolves : List Wolf) (immD : Bool)
    (st : DeerPassSt) (i : ℕ) : (deerStepAt M r wolves immD st i).trees ⊆ st.trees := by
  obtain ⟨d3, ht, -⟩ := deerStepAt_treesGrid M r wolves immD st i
  rw [ht]
  rcases deerEat_treesGrid M st.trees st.grid d3 with ⟨h1, -⟩ | ⟨j, -, h1, -⟩
  · rw [h1]
    exact fun a ha => ha
  · rw [h1]
    exact (List.eraseIdx_sublist _ j).subset

theorem deerPassAux_trees_subset (M : MathFns) (r : Rng) (wolves : List Wolf) (immD : Bool) :
    ∀ (n i : ℕ) (st : DeerPassSt), (deerPassAux M r wolves immD n i st).trees ⊆ st.trees := by
  intro n
  induction n with
  | zero =>
    intro i st
    exact fun a ha => ha
  | succ n ihn =>
    intro i st
    exact fun a ha => deerStepAt_trees_subset M r wolves immD st i
      (ihn (i + 1) (deerStepAt M r wolves immD st i) ha)

/-- Provenance through the wolf filter loop. -/
theorem wolfPassAux_provenance (M : MathFns) (r : Rng) (immW : Bool) (orig : List Wolf) :
    ∀ (n i : ℕ) (st : WolfPassSt), n + i ≤ st.arr.length →
    (∀ w ∈ st.arr, ∃ w0 ∈ orig, w.id = w0.id ∧ w.characteristics = w0.characteristics) →
    (∀ b ∈ st.born, b.age = 0 ∧ ∃ w0 ∈ orig, b.characteristics = w0.characteristics) →
    (∀ w ∈ (wolfPassAux M r immW n i st).arr,
      ∃ w0 ∈ orig, w.id = w0.id ∧ w.characteristics = w0.characteristics) ∧
    (∀ b ∈ (wolfPassAux M r immW n i st).born,
      b.age = 0 ∧ ∃ w0 ∈ orig, b.characteristics = w0.characteristics) := by
  intro n
  induction n with
  | zero =>
    intro i st _ harr hborn
    exact ⟨harr, hborn⟩
  | succ n ihn =>
    intro i st hlen harr hborn
    have hi : i < st.arr.length := by omega
    have hmem : st.arr.getD i defaultWolf ∈ st.arr := by
      rw [List.getD_eq_getElem st.arr defaultWolf hi]
      exact List.getElem_mem hi
    obtain ⟨w', harr', hid, hage, hchars⟩ := wolfStepAt_arr_set M r immW st i
    have hP : ∃ w0 ∈ orig, w'.id = w0.id ∧ w'.characteristics = w0.characteristics := by
      obtain ⟨w0, hw0, h1, h2⟩ := harr _ hmem
      exact ⟨w0, hw0, by rw [hid, h1], by rw [hchars, h2]⟩
    apply ihn (i + 1)
    · rw [harr', List.length_set]
      omega
    · intro w hw
      rw [harr'] at hw
      rcases List.mem_or_eq_of_mem_set hw with h | h
      · exact harr w h
      · rw [h]
        exact hP
    · intro b hb
      rcases wolfStepAt_born M r immW st i with h | ⟨b', hb', hage', hchars'⟩
      · rw [h] at hb
        exact hborn b hb
      · rw [hb'] at hb
        rcases List.mem_append.mp hb with h | h
        · exact hborn b h
        · simp only [List.mem_singleton] at h
          subst h
          obtain ⟨w0, hw0, -, h2⟩ := harr _ hmem
          exact ⟨hage', w0, hw0, by rw [hchars', h2]⟩

theorem wolfUpdates_provenance (M : MathFns) (r : Rng) (immW : Bool) (s : SimState) (k : ℕ) :
    ∀ w ∈ (wolfUpdates M r immW s k).1.eco.wolves,
      (∃ w0 ∈ s.eco.wolves, w.id = w0.id ∧ w.characteristics = w0.characteristics) ∨
      (w.age = 0 ∧ ∃ w0 ∈ s.eco.wolves, w.characteristics = w0.characteristics) := by
  intro w hw
  unfold wolfUpdates at hw
  dsimp only at hw
  have haux := wolfPassAux_provenance M r immW s.eco.wolves s.eco.wolves.length 0
    { arr := s.eco.wolves, keeps := [], deer := s.eco.deer, born := [], nextId := s.nextWolfId, k := k }
    (by simp) (fun w hw => ⟨w, hw, rfl, rfl⟩) (by intro b hb; simp at hb)
  rcases List.mem_append.mp hw with h | h
  · exact Or.inl (haux.1 w (applyKeeps_subset _ _ h))
  · exact Or.inr (haux.2 w h)

theorem wolfPassAux_deer_subset (M : MathFns) (r : Rng) (immW : Bool) :
    ∀ (n i : ℕ) (st : WolfPassSt), (wolfPassAux M r immW n i st).deer ⊆ st.deer := by
  intro n
  induction n with
  | zero =>
    intro i st
    exact fun a ha => ha
  | succ n ihn =>
    intro i st
    exact fun a ha => wolfStepAt_deer_subset M r immW st i
      (ihn (i + 1) (wolfStepAt M r immW st i) ha)

-- ===== Characteristic bounds (sampling, initialization, preservation) =====

/-- `randomInRange` stays inside `[mn, mx]` when the draw is in `[0, 1]`. -/
theorem randomInRange_mem (r : Rng) (k : ℕ) (mn mx : ℚ) (h0 : 0 ≤ r k) (h1 : r k ≤ 1)
    (hle : mn ≤ mx) :
    mn ≤ (randomInRange r k mn mx).1 ∧ (randomInRange r k mn mx).1 ≤ mx := by
  unfold randomInRange
  dsimp only
  constructor <;> nlinarith

set_option maxHeartbeats 800000 in
/-- Sampled tree characteristics lie in the bound table, with
`SpreadDistance` in the scaled bounds. -/
theorem randomTreeCharacteristics_bounds (r : Rng) (k : ℕ) (hr : rngIn01 r) :
    treeCharsWithinScaled (randomTreeCharacteristics r k).1 := by
  have h0 := hr k
  have h1 := hr (k + 1)
  have h2 := hr (k + 1 + 1)
  have h3 := hr (k + 1 + 1 + 1)
  have h4 := hr (k + 1 + 1 + 1 + 1)
  have h5 := hr (k + 1 + 1 + 1 + 1 + 1)
  have h6 := hr (k + 1 + 1 + 1 + 1 + 1 + 1)
  unfold randomTreeCharacteristics randomInRange treeCharsWithinScaled inBound scaledBound
  dsimp only
  simp only [TREE_BOUNDS, ECOSYSTEM_SCALE]
  refine ⟨⟨?_, ?_⟩, ⟨?_, ?_⟩, ⟨?_, ?_⟩, ⟨?_, ?_⟩, ⟨?_, ?_⟩, ⟨?_, ?_⟩, ⟨?_, ?_⟩⟩
  · nlinarith [h0.1, h0.2]
  · nlinarith [h0.1, h0.2]
  · nlinarith [h1.1, h1.2]
  · nlinarith [h1.1, h1.2]
  · nlinarith [h2.1, h2.2]
  · nlinarith [h2.1, h2.2]
  · nlinarith [h3.1, h3.2]
  · nlinarith [h3.1, h3.2]
  · nlinarith [h4.1, h4.2]
  · nlinarith [h4.1, h4.2]
  · nlinarith [h5.1, h5.2]
  · nlinarith [h5.1, h5.2]
  · nlinarith [h6.1, h6.2]
  · nlinarith [h6.1, h6.2]

set_option maxHeartbeats 800000 in
/-- Sampled deer characteristics lie in the bound table, with `Speed` in the
scaled bounds. -/
theorem randomDeerCharacteristics_bounds (r : Rng) (k : ℕ) (hr : rngIn01 r) :
    deerCharsWithinScaled (randomDeerCharacteristics r k).1 := by
  have h0 := hr k
  have h1 := hr (k + 1)
  have h2 := hr (k + 1 + 1)
  have h3 := hr (k + 1 + 1 + 1)
  have h4 := hr (k + 1 + 1 + 1 + 1)
  have h5 := hr (k + 1 + 1 + 1 + 1 + 1)
  have h6 := hr (k + 1 + 1 + 1 + 1 + 1 + 1)
  unfold randomDeerCharacteristics randomInRange deerCharsWithinScaled inBound scaledBound
  dsimp only
  simp only [DEER_BOUNDS, ECOSYSTEM_SCALE]
  refine ⟨⟨?_, ?_⟩, ⟨?_, ?_⟩, ⟨?_, ?_⟩, ⟨?_, ?_⟩, ⟨?_, ?_⟩, ⟨?_, ?_⟩, ⟨?_, ?_⟩⟩
  · nlinarith [h0.1, h0.2]
  · nlinarith [h0.1, h0.2]
  · nlinarith [h1.1, h1.2]
  · nlinarith [h1.1, h1.2]
  · nlinarith [h2.1, h2.2]
  · nlinarith [h2.1, h2.2]
  · nlinarith [h3.1, h3.2]
  · nlinarith [h3.1, h3.2]
  · nlinarith [h4.1, h4.2]
  · nlinarith [h4.1, h4.2]
  · nlinarith [h5.1, h5.2]
  · nlinarith [h5.1, h5.2]
  · nlinarith [h6.1, h6.2]
  · nlinarith [h6.1, h6.2]

set_option maxHeartbeats 800000 in
/-- Sampled wolf characteristics lie in the bound table, with `Speed` in the
scaled bounds. -/
theorem randomWolfCharacteristics_bounds (r : Rng) (k : ℕ) (hr : rngIn01 r) :
    wolfCharsWithinScaled (randomWolfCharacteristics r k).1 := by
  have h0 := hr k
  have h1 := hr (k + 1)
  have h2 := hr (k + 1 + 1)
  have h3 := hr (k + 1 + 1 + 1)
  have h4 := hr (k + 1 + 1 + 1 + 1)
  have h5 := hr (k + 1 + 1 + 1 + 1 + 1)
  unfold randomWolfCharacteristics randomInRange wolfCharsWithinScaled inBound scaledBound
  dsimp only
  simp only [WOLF_BOUNDS, ECOSYSTEM_SCALE]
  refine ⟨⟨?_, ?_⟩, ⟨?_, ?_⟩, ⟨?_, ?_⟩, ⟨?_, ?_⟩, ⟨?_, ?_⟩, ⟨?_, ?_⟩⟩
  · nlinarith [h0.1, h0.2]
  · nlinarith [h0.1, h0.2]
  · nlinarith [h1.1, h1.2]
  · nlinarith [h1.1, h1.2]
  · nlinarith [h2.1, h2.2]
  · nlinarith [h2.1, h2.2]
  · nlinarith [h3.1, h3.2]
  · nlinarith [h3.1, h3.2]
  · nlinarith [h4.1, h4.2]
  · nlinarith [h4.1, h4.2]
  · nlinarith [h5.1, h5.2]
  · nlinarith [h5.1, h5.2]

/-- Every tree created by the initialization loop has in-bounds (scaled)
characteristics. -/
theorem initTreesAux_chars (r : Rng) (hr : rngIn01 r) :
    ∀ (n nextId k : ℕ) (acc : List Tree) (grid : ℤ × ℤ → List Tree),
    (∀ t ∈ acc, treeCharsWithinScaled t.characteristics) →
    ∀ t ∈ (initTreesAux r n nextId k acc grid).1, treeCharsWithinScaled t.characteristics := by
  intro n
  induction n with
  | zero =>
    intro nextId k acc grid hacc
    exact hacc
  | succ n ihn =>
    intro nextId k acc grid hacc
    unfold initTreesAux
    have hch := randomTreeCharacteristics_bounds r (k + 2) hr
    rcases hre : randomTreeCharacteristics r (k + 2) with ⟨chars, k1⟩
    rw [hre] at hch
    dsimp only
    apply ihn
    intro t ht
    rcases List.mem_append.mp ht with h | h
    · exact hacc t h
    · simp only [List.mem_singleton] at h
      subst h
      exact hch

/-- Every deer created by the initialization loop has in-bounds (scaled)
characteristics. -/
theorem initDeerAux_chars (r : Rng) (hr : rngIn01 r) :
    ∀ (n nextId k : ℕ) (acc : List Deer),
    (∀ d ∈ acc, deerCharsWithinScaled d.characteristics) →
    ∀ d ∈ (initDeerAux r n nextId k acc).1, deerCharsWithinScaled d.characteristics := by
  intro n
  induction n with
  | zero =>
    intro nextId k acc hacc
    exact hacc
  | succ n ihn =>
    intro nextId k acc hacc
    unfold initDeerAux
    have hch := randomDeerCharacteristics_bounds r (k + 2) hr
    rcases hre : randomDeerCharacteristics r (k + 2) with ⟨chars, k1⟩
    rw [hre] at hch
    dsimp only
    apply ihn
    intro d hd
    rcases List.mem_append.mp hd with h | h
    · exact hacc d h
    · simp only [List.mem_singleton] at h
      subst h
      exact hch

/-- Every wolf created by the initialization loop has in-bounds (scaled)
characteristics. -/
theorem initWolvesAux_chars (r : Rng) (hr : rngIn01 r) :
    ∀ (n nextId k : ℕ) (acc : List Wolf),
    (∀ w ∈ acc, wolfCharsWithinScaled w.characteristics) →
    ∀ w ∈ (initWolvesAux r n nextId k acc).1, wolfCharsWithinScaled w.characteristics := by
  intro n
  induction n with
  | zero =>
    intro nextId k acc hacc
    exact hacc
  | succ n ihn =>
    intro nextId k acc hacc
    unfold initWolvesAux
    have hch := randomWolfCharacteristics_bounds r (k + 2) hr
    rcases hre : randomWolfCharacteristics r (k + 2) with ⟨chars, k1⟩
    rw [hre] at hch
    dsimp only
    apply ihn
    intro w hw
    rcases List.mem_append.mp hw with h | h
    · exact hacc w h
    · simp only [List.mem_singleton] at h
      subst h
      exact hch

/-- The freshly initialized ecosystem has all characteristics within the
(scaled) bound tables. -/
theorem initializeEcosystem_chars (M : MathFns) (r : Rng) (k : ℕ) (hr : rngIn01 r) :
    ecoCharsWithinScaled (initializeEcosystem M r k).1.eco := by
  unfold initializeEcosystem
  have h1aux := initTreesAux_chars r hr DEFAULT_TREE_COUNT 0 k [] (fun _ => [])
    (by intro t ht; simp at ht)
  rcases h1 : initTreesAux r DEFAULT_TREE_COUNT 0 k [] (fun _ => []) with ⟨trees, grid, nTid, k1⟩
  rw [h1] at h1aux
  dsimp only
  have h2aux := initDeerAux_chars r hr DEFAULT_DEER_COUNT 0 k1 []
    (by intro d hd; simp at hd)
  rcases h2 : initDeerAux r DEFAULT_DEER_COUNT 0 k1 [] with ⟨deerL, nDid, k2⟩
  rw [h2] at h2aux
  dsimp only
  have h3aux := initWolvesAux_chars r hr DEFAULT_WOLF_COUNT 0 k2 []
    (by intro w hw; simp at hw)
  rcases h3 : initWolvesAux r DEFAULT_WOLF_COUNT 0 k2 [] with ⟨wolvesL, nWid, k3⟩
  rw [h3] at h3aux
  dsimp only
  exact ⟨h1aux, h2aux, h3aux⟩

/-- The deer pass can only shrink the tree population. -/
theorem deerUpdates_trees_subset (M : MathFns) (r : Rng) (iD : Bool) (s : SimState) (k : ℕ) :
    (deerUpdates M r iD s k).1.eco.trees ⊆ s.eco.trees := by
  unfold deerUpdates
  dsimp only
  exact deerPassAux_trees_subset M r s.eco.wolves iD s.eco.deer.length 0 _

/-- The wolf pass can only shrink the deer population. -/
theorem wolfUpdates_deer_subset (M : MathFns) (r : Rng) (iW : Bool) (s : SimState) (k : ℕ) :
    (wolfUpdates M r iW s k).1.eco.deer ⊆ s.eco.deer := by
  unfold wolfUpdates
  dsimp only
  exact wolfPassAux_deer_subset M r iW s.eco.wolves.length 0 _

/-- The tree section preserves characteristic bounds (survivors keep their
characteristics, newborns clone a parent's; deer and wolves untouched). -/
theorem treeUpdates_ecoChars (M : MathFns) (r : Rng) (pre : Option (ℕ → ℚ))
    (s : SimState) (k : ℕ) (h : ecoCharsWithinScaled s.eco) :
    ecoCharsWithinScaled (treeUpdates M r pre s k).1.eco := by
  refine ⟨?_, h.2.1, h.2.2⟩
  intro t ht
  rcases treeUpdates_provenance M r pre s k t ht with ⟨t0, ht0, -, -, -, -, hc⟩ | ⟨-, -, t0, ht0, hc⟩
  · rw [hc]
    exact h.1 t0 ht0
  · rw [hc]
    exact h.1 t0 ht0

/-- The deer section preserves characteristic bounds (it only erases trees,
survivors and fawns carry pre-pass characteristics, wolves untouched). -/
theorem deerUpdates_ecoChars (M : MathFns) (r : Rng) (iD : Bool)
    (s : SimState) (k : ℕ) (h : ecoCharsWithinScaled s.eco) :
    ecoCharsWithinScaled (deerUpdates M r iD s k).1.eco := by
  refine ⟨?_, ?_, h.2.2⟩
  · intro t ht
    exact h.1 t (deerUpdates_trees_subset M r iD s k ht)
  · intro d hd
    rcases deerUpdates_provenance M r iD s k d hd with ⟨d0, hd0, -, hc⟩ | ⟨-, d0, hd0, hc⟩
    · rw [hc]
      exact h.2.1 d0 hd0
    · rw [hc]
      exact h.2.1 d0 hd0

/-- The wolf section preserves characteristic bounds (trees untouched, it
only erases deer, survivors and pups carry pre-pass characteristics). -/
theorem wolfUpdates_ecoChars (M : MathFns) (r : Rng) (iW : Bool)
    (s : SimState) (k : ℕ) (h : ecoCharsWithinScaled s.eco) :
    ecoCharsWithinScaled (wolfUpdates M r iW s k).1.eco := by
  refine ⟨h.1, ?_, ?_⟩
  · intro d hd
    exact h.2.1 d (wolfUpdates_deer_subset M r iW s k hd)
  · intro w hw
    rcases wolfUpdates_provenance M r iW s k w hw with ⟨w0, hw0, -, hc⟩ | ⟨-, w0, hw0, hc⟩
    · rw [hc]
      exact h.2.2 w0 hw0
    · rw [hc]
      exact h.2.2 w0 hw0

/-- C4 (amended): sampled characteristics lie within the declared species
bound tables except tree `SpreadDistance` and deer/wolf `Speed`, which lie
within the table scaled by `ECOSYSTEM_SCALE = 0.5` (the in-bounds sample is
multiplied by the scale after drawing); initialization establishes these
(scaled) bounds for the whole population, and every `updateEcosystem` tick
preserves them — survivors keep their characteristics and offspring clone a
parent's. -/
theorem claimC4_characteristic_bounds :
    (∀ (r : Rng) (k : ℕ), rngIn01 r →
      treeCharsWithinScaled (randomTreeCharacteristics r k).1 ∧
      deerCharsWithinScaled (randomDeerCharacteristics r k).1 ∧
      wolfCharsWithinScaled (randomWolfCharacteristics r k).1) ∧
    (∀ (M : MathFns) (r : Rng) (k : ℕ), rngIn01 r →
      ecoCharsWithinScaled (initializeEcosystem M r k).1.eco) ∧
    (∀ (M : MathFns) (r : Rng) (pre : Option (ℕ → ℚ)) (iD iW : Bool) (s : SimState) (k : ℕ),
      ecoCharsWithinScaled s.eco →
      ecoCharsWithinScaled (updateEcosystem M r pre iD iW s k).1.eco) := by
  refine ⟨?_, ?_, ?_⟩
  · intro r k hr
    exact ⟨randomTreeCharacteristics_bounds r k hr, randomDeerCharacteristics_bounds r k hr,
      randomWolfCharacteristics_bounds r k hr⟩
  · intro M r k hr
    exact initializeEcosystem_chars M r k hr
  · intro M r pre iD iW s k h
    exact wolfUpdates_ecoChars M r iW
      (deerUpdates M r iD (treeUpdates M r pre s k).1 (treeUpdates M r pre s k).2).1
      (deerUpdates M r iD (treeUpdates M r pre s k).1 (treeUpdates M r pre s k).2).2
      (deerUpdates_ecoChars M r iD (treeUpdates M r pre s k).1 (treeUpdates M r pre s k).2
        (treeUpdates_ecoChars M r pre s k h))

/-- C4 witness: the bounds hold concretely for the constant one-half stream
and are preserved by a concrete tick on a concrete in-bounds state. -/
theorem claimC4_characteristic_bounds_w :
    rngIn01 rhalf ∧ ecoCharsWithinScaled wStateBounds.eco ∧
    treeCharsWithinScaled (randomTreeCharacteristics rhalf 0).1 ∧
    ecoCharsWithinScaled (initializeEcosystem mzero rhalf 0).1.eco ∧
    ecoCharsWithinScaled (updateEcosystem mzero rhalf none true true wStateBounds 0).1.eco := by
  have hr : rngIn01 rhalf := by
    intro j
    constructor <;> norm_num [rhalf]
  have hs : ecoCharsWithinScaled wStateBounds.eco := by
    refine ⟨?_, ?_, ?_⟩
    · intro t ht
      simp only [wStateBounds, wEcoBounds, List.mem_singleton] at ht
      subst ht
      norm_num [wTreeB, wTreeCharsB, treeCharsWithinScaled, inBound, scaledBound,
        TREE_BOUNDS, ECOSYSTEM_SCALE]
    · intro d hd
      simp only [wStateBounds, wEcoBounds, List.mem_singleton] at hd
      subst hd
      norm_num [wDeerB, wDeerCharsB, deerCharsWithinScaled, inBound, scaledBound,
        DEER_BOUNDS, ECOSYSTEM_SCALE]
    · intro w hw
      simp only [wStateBounds, wEcoBounds, List.mem_singleton] at hw
      subst hw
      norm_num [wWolfB, wWolfCharsB, wolfCharsWithinScaled, inBound, scaledBound,
        WOLF_BOUNDS, ECOSYSTEM_SCALE]
  exact ⟨hr, hs, (claimC4_characteristic_bounds.1 rhalf 0 hr).1,
    claimC4_characteristic_bounds.2.1 mzero rhalf 0 hr,
    claimC4_characteristic_bounds.2.2 mzero rhalf none true true wStateBounds 0 hs⟩

/-- C8: within one `updateEcosystem` call the three species passes run
strictly in order — the whole call literally equals the wolf section applied
to the output of the deer section applied to the output of the tree section;
the tree section touches only trees (deer and wolves pass through
unchanged), so the deer pass reads the tree population as left by this
tick's producer pass (survivors aged, this tick's newborns included, this
tick's deaths excluded), and the deer section touches no wolves while only
erasing trees, so the wolf pass reads the deer population as left by this
tick's deer pass. -/
theorem claimC8_pass_ordering :
    (∀ (M : MathFns) (r : Rng) (pre : Option (ℕ → ℚ)) (iD iW : Bool)
        (s : SimState) (k : ℕ),
      updateEcosystem M r pre iD iW s k =
        wolfUpdates M r iW
          (deerUpdates M r iD (treeUpdates M r pre s k).1 (treeUpdates M r pre s k).2).1
          (deerUpdates M r iD (treeUpdates M r pre s k).1 (treeUpdates M r pre s k).2).2) ∧
    (∀ (M : MathFns) (r : Rng) (pre : Option (ℕ → ℚ)) (s : SimState) (k : ℕ),
      treeTickProvenance s.eco.trees (treeUpdates M r pre s k).1.eco.trees ∧
      (treeUpdates M r pre s k).1.eco.deer = s.eco.deer ∧
      (treeUpdates M r pre s k).1.eco.wolves = s.eco.wolves) ∧
    (∀ (M : MathFns) (r : Rng) (iD : Bool) (s : SimState) (k : ℕ),
      deerTickProvenance s.eco.deer (deerUpdates M r iD s k).1.eco.deer ∧
      (deerUpdates M r iD s k).1.eco.trees ⊆ s.eco.trees ∧
      (deerUpdates M r iD s k).1.eco.wolves = s.eco.wolves) ∧
    (∀ (M : MathFns) (r : Rng) (iW : Bool) (s : SimState) (k : ℕ),
      (wolfUpdates M r iW s k).1.eco.trees = s.eco.trees ∧
      (wolfUpdates M r iW s k).1.eco.deer ⊆ s.eco.deer) := by
  refine ⟨fun M r pre iD iW s k => rfl, ?_, ?_, ?_⟩
  · intro M r pre s k
    exact ⟨treeUpdates_provenance M r pre s k, rfl, rfl⟩
  · intro M r iD s k
    exact ⟨deerUpdates_provenance M r iD s k, deerUpdates_trees_subset M r iD s k, rfl⟩
  · intro M r iW s k
    exact ⟨rfl, wolfUpdates_deer_subset M r iW s k⟩

end EcoSim
